import Mathlib

/-!
Verification of the hardhat build-info parsing layer of crytic-compile
(src/crytic_compile/platform/hardhat.py, function hardhat_like_parsing).

The embedding models the per-document body of hardhat_like_parsing
(lines 62-145): decoding one build-info JSON document into a
CompilationUnit.  Python dictionaries decoded from JSON are modelled as
association lists in document order; Python exceptions (KeyError,
TypeError, AttributeError, and the library's InvalidCompilation) are
modelled explicitly, and since Python exceptions leave already-performed
mutations in place, every processing function returns the state reached
at the point of failure together with the error.

Collaborators of hardhat.py that live elsewhere in the repository
(CompilationUnit, SourceUnit, convert_filename, extract_name, Natspec)
are modelled from the spec; their doc comments say so.  The filename
resolver (convert_filename, spec: FilenameResolver) is kept abstract as
a function parameter, since the spec only requires it to be a pure
function of the raw path.
-/

namespace CryticCompile


/-- JSON values as produced by Python's json.load: null, booleans,
strings, numbers, arrays, and objects (insertion-ordered key/value
lists; json.load produces dictionaries, hence unique keys). -/
inductive Json where
  | null : Json
  | bool : Bool → Json
  | str : String → Json
  | num : Int → Json
  | arr : List Json → Json
  | obj : List (String × Json) → Json

/-- Python exception kinds raised by the modelled code paths. -/
inductive PyErr where
  | keyError : String → PyErr
  | typeError : PyErr
  | attributeError : PyErr
  | invalidCompilation : String → PyErr
  deriving DecidableEq

/-- First-match lookup in an association list (Python dict lookup; the
dictionaries built by json.load have unique keys, so first-match agrees
with dict semantics). -/
def alookup {α : Type} : List (String × α) → String → Option α
  | [], _ => none
  | (k2, v) :: rest, k => if k2 = k then some v else alookup rest k

/-- Python dict assignment d[k] = v: replaces the value in place if the
key is present, appends otherwise (insertion order preserved). -/
def setKey {α : Type} : List (String × α) → String → α → List (String × α)
  | [], k, v => [(k, v)]
  | (k2, v2) :: rest, k, v =>
      if k2 = k then (k, v) :: rest else (k2, v2) :: setKey rest k v

/-- Applies f to the value stored at key k, leaving the list unchanged
if the key is absent. -/
def mapAt {α : Type} : List (String × α) → String → (α → α) → List (String × α)
  | [], _, _ => []
  | (k2, v) :: rest, k, f =>
      if k2 = k then (k2, f v) :: rest else (k2, v) :: mapAt rest k f

/-- Python d[k] on a decoded JSON value: KeyError when the key is absent
from an object, TypeError when the value is not a dictionary. -/
def Json.item : Json → String → Except PyErr Json
  | .obj kvs, k =>
      match alookup kvs k with
      | some v => Except.ok v
      | none => Except.error (PyErr.keyError k)
  | _, _ => Except.error PyErr.typeError

/-- Python d.get(k, default) on a decoded JSON value: the stored value
(even if null) when the key is present, the default when absent,
AttributeError when the receiver is not a dictionary. -/
def Json.dictGet : Json → String → Json → Except PyErr Json
  | .obj kvs, k, d =>
      match alookup kvs k with
      | some v => Except.ok v
      | none => Except.ok d
  | _, _, _ => Except.error PyErr.attributeError

/-- Python d.items() on a decoded JSON value. -/
def Json.items : Json → Except PyErr (List (String × Json))
  | .obj kvs => Except.ok kvs
  | _ => Except.error PyErr.attributeError

/-- Python k in d: key membership for dictionaries, substring test for
strings, element equality for lists, TypeError otherwise. -/
def Json.eqStr : Json → String → Bool
  | .str s, t => s = t
  | _, _ => false

/-- Python identity test x is None. -/
def Json.isNull : Json → Bool
  | .null => true
  | _ => false

/-- Key lookup returning an option (used to model the k in d test on a
decoded object and the subsequent d[k]). -/
def Json.getKey : Json → String → Option Json
  | .obj kvs, k => alookup kvs k
  | _, _ => none

/-- Python k in d for the container kinds json.load can produce:
key membership on dictionaries, substring membership on strings,
element membership on lists, TypeError on the rest. -/
def Json.hasKeyPy : Json → String → Except PyErr Bool
  | .obj kvs, k => Except.ok (alookup kvs k).isSome
  | .str s, k => Except.ok (2 ≤ (s.splitOn k).length)
  | .arr xs, k => Except.ok (xs.any (fun v => v.eqStr k))
  | _, _ => Except.error PyErr.typeError

/-- Helper for pySplit: accumulates the current field in reverse. -/
def pySplitAux (sep : Char) : List Char → List Char → List String
  | [], acc => [String.mk acc.reverse]
  | c :: cs, acc =>
      if c = sep then String.mk acc.reverse :: pySplitAux sep cs []
      else pySplitAux sep cs (c :: acc)

/-- Python str.split with a one-character separator: empty fields are
preserved, and splitting the empty string yields one empty field. -/
def pySplit (s : String) (sep : Char) : List String :=
  pySplitAux sep s.toList []

/-- Python value.split(";") where value came from a JSON document:
AttributeError when the value is not a string. -/
def Json.splitSemicolons : Json → Except PyErr (List String)
  | .str s => Except.ok (pySplit s ';')
  | _ => Except.error PyErr.attributeError

/-- Modelled from the spec: Natspec (utils/natspec.py is not under
src/) — a value object pairing a user documentation mapping with a
developer documentation mapping. -/
structure Natspec where
  userdoc : Json
  devdoc : Json

/-- CompilerVersion value object (compiler/compiler.py is not under
src/; modelled from the spec): compiler family name, version, and
optimizer flag, stored verbatim from the document. -/
structure CompilerVersion where
  compiler : String
  version : Json
  optimized : Json

/-- Modelled from the spec: SourceUnit (compilation_unit.py /
source_unit.py are not under src/) — canonical record for one source
file: optional AST (null meaning absent, as in Python None), the set of
contract names declared here, and per-contract-name mappings for ABI,
bytecodes, source maps and Natspec. -/
structure SourceUnit where
  ast : Json := Json.null
  contract_names : List String := []
  abis : List (String × Json) := []
  bytecodes_init : List (String × Json) := []
  bytecodes_runtime : List (String × Json) := []
  srcmaps_init : List (String × List String) := []
  srcmaps_runtime : List (String × List String) := []
  natspec : List (String × Natspec) := []

/-- Modelled from the spec: CompilationUnit (compilation_unit.py is not
under src/) — identity, compiler metadata, canonical filename →
SourceUnit mapping, and the filename → contract-name-set reverse
index. -/
structure CompilationUnit where
  uniq_id : String
  compiler_version : Option CompilerVersion := none
  source_units : List (String × SourceUnit) := []
  filename_to_contracts : List (String × List String) := []

/-- Keys of the filename → SourceUnit mapping, in creation order. -/
def CompilationUnit.keys (cu : CompilationUnit) : List String :=
  cu.source_units.map Prod.fst

/-- Lookup of a SourceUnit by canonical filename. -/
def CompilationUnit.lookupSU (cu : CompilationUnit) (k : String) : Option SourceUnit :=
  alookup cu.source_units k

/-- Modelled from the spec: CompilationUnit.create_source_unit — lazy
get-or-create of the SourceUnit for a canonical filename; repeated
references reuse the existing instance. -/
def create_source_unit (cu : CompilationUnit) (filename : String) : CompilationUnit :=
  match alookup cu.source_units filename with
  | some _ => cu
  | none =>
      { cu with source_units := cu.source_units ++ [(filename, {})] }

/-- Applies an update to the SourceUnit stored under a canonical
filename (Python mutates the aliased object in place). -/
def updateSourceUnit (cu : CompilationUnit) (filename : String)
    (f : SourceUnit → SourceUnit) : CompilationUnit :=
  { cu with source_units := mapAt cu.source_units filename f }

/-- Modelled from the spec: SourceUnit.add_contract_name — adds a bare
contract name to the unit's contract-name set. -/
def add_contract_name (su : SourceUnit) (name : String) : SourceUnit :=
  if name ∈ su.contract_names then su
  else { su with contract_names := su.contract_names ++ [name] }

/-- Contract-name set stored in the reverse index for a canonical
filename (empty when the filename has no entry yet, as in a
defaultdict). -/
def ftcNames (cu : CompilationUnit) (filename : String) : List String :=
  (alookup cu.filename_to_contracts filename).getD []

/-- Modelled from the spec: compilation_unit.filename_to_contracts
[filename].add(name) — defaultdict-of-set addition into the reverse
index. -/
def add_filename_contract (cu : CompilationUnit) (filename name : String) :
    CompilationUnit :=
  let cur := ftcNames cu filename
  let ns := if name ∈ cur then cur else cur ++ [name]
  { cu with filename_to_contracts := setKey cu.filename_to_contracts filename ns }

/-- Helper for extract_name: keeps the characters seen since the last
colon (accumulated in reverse). -/
def extract_name_aux : List Char → List Char → List Char
  | [], acc => acc.reverse
  | c :: cs, acc =>
      if c = ':' then extract_name_aux cs [] else extract_name_aux cs (c :: acc)

/-- Modelled from the spec: utils/naming.extract_name (not under src/)
— strips the file-scope qualification from a raw contract identifier,
returning the trailing simple identifier after the last colon; a name
without a colon is returned unchanged. -/
def extract_name (raw : String) : String :=
  String.mk (extract_name_aux raw.toList [])

/-- hardhat.py lines 83-85: the entry-point-override quirk test — the
version string is compared against the ten strings "0.4.0" … "0.4.9";
the compiler family plays no part. -/
def skip_filename (version : Json) : Bool :=
  ((List.range 10).map (fun x => "0.4." ++ toString x)).any
    (fun s => version.eqStr s)

/-- hardhat.py lines 89-102: the canonical key computed for a "sources"
entry — the resolved build target when the quirk is active, the entry's
own resolved path otherwise. -/
def effective_source_key (resolve : String → String) (target : String)
    (skip : Bool) (p : String) : String :=
  if skip then resolve target else resolve p

/-- hardhat.py lines 88-109: processing of one (path, info) entry of the
"sources" section.  The effective path is the resolved build target when
the quirk is active, the entry's own resolved path otherwise; the
SourceUnit is created (or reused), its AST is assigned from "ast" with
fallback to "legacyAST", and a null AST is a fatal InvalidCompilation
naming the effective path and the document. -/
def process_source_entry (resolve : String → String) (target : String)
    (build_info : String) (skip : Bool) (cu : CompilationUnit)
    (entry : String × Json) : CompilationUnit × Option PyErr :=
  let path := effective_source_key resolve target skip entry.1
  let cu1 := create_source_unit cu path
  match entry.2.dictGet "legacyAST" Json.null with
  | Except.error e => (cu1, some e)
  | Except.ok fallback =>
    match entry.2.dictGet "ast" fallback with
    | Except.error e => (cu1, some e)
    | Except.ok astVal =>
      let cu2 := updateSourceUnit cu1 path (fun su => { su with ast := astVal })
      if astVal.isNull then
        (cu2, some (PyErr.invalidCompilation
          ("AST not found for " ++ path ++ " in " ++ build_info ++ " directory")))
      else (cu2, none)

/-- hardhat.py lines 124-127: the bare name extracted from the raw
contract identifier is registered in the SourceUnit's contract-name set
and in the CompilationUnit's reverse index — this happens before any
data field of the entry is read. -/
def register_contract (filename : String) (cu : CompilationUnit)
    (raw : String) : CompilationUnit :=
  add_filename_contract
    (updateSourceUnit cu filename (fun su => add_contract_name su (extract_name raw)))
    filename (extract_name raw)

/-- hardhat.py lines 123-145: processing of one (raw name, info) entry
of a contracts file: the bare name is registered first, then ABI, both
bytecode objects, both source maps (split on ";") and the Natspec are
stored, each fetched by plain dictionary indexing in source order. -/
def process_contract (filename : String) (cu : CompilationUnit)
    (entry : String × Json) : CompilationUnit × Option PyErr :=
  let contract_name := extract_name entry.1
  let info := entry.2
  let cu2 := register_contract filename cu entry.1
  match info.item "abi" with
  | Except.error e => (cu2, some e)
  | Except.ok abi =>
    let cu3 := updateSourceUnit cu2 filename
      (fun su => { su with abis := setKey su.abis contract_name abi })
    match (info.item "evm").bind (fun evm => evm.item "bytecode") with
    | Except.error e => (cu3, some e)
    | Except.ok bytecode =>
      match bytecode.item "object" with
      | Except.error e => (cu3, some e)
      | Except.ok initObj =>
        let cu4 := updateSourceUnit cu3 filename
          (fun su => { su with bytecodes_init := setKey su.bytecodes_init contract_name initObj })
        match (info.item "evm").bind (fun evm => evm.item "deployedBytecode") with
        | Except.error e => (cu4, some e)
        | Except.ok deployed =>
          match deployed.item "object" with
          | Except.error e => (cu4, some e)
          | Except.ok runObj =>
            let cu5 := updateSourceUnit cu4 filename
              (fun su => { su with bytecodes_runtime := setKey su.bytecodes_runtime contract_name runObj })
            match ((info.item "evm").bind (fun evm => evm.item "bytecode")).bind
                (fun bc => bc.item "sourceMap") with
            | Except.error e => (cu5, some e)
            | Except.ok smInitVal =>
              match smInitVal.splitSemicolons with
              | Except.error e => (cu5, some e)
              | Except.ok smInit =>
                let cu6 := updateSourceUnit cu5 filename
                  (fun su => { su with srcmaps_init := setKey su.srcmaps_init contract_name smInit })
                match ((info.item "evm").bind (fun evm => evm.item "deployedBytecode")).bind
                    (fun db => db.item "sourceMap") with
                | Except.error e => (cu6, some e)
                | Except.ok smRunVal =>
                  match smRunVal.splitSemicolons with
                  | Except.error e => (cu6, some e)
                  | Except.ok smRun =>
                    let cu7 := updateSourceUnit cu6 filename
                      (fun su => { su with srcmaps_runtime := setKey su.srcmaps_runtime contract_name smRun })
                    match info.dictGet "userdoc" (Json.obj []) with
                    | Except.error e => (cu7, some e)
                    | Except.ok userdoc =>
                      match info.dictGet "devdoc" (Json.obj []) with
                      | Except.error e => (cu7, some e)
                      | Except.ok devdoc =>
                        (updateSourceUnit cu7 filename
                          (fun su => { su with natspec := setKey su.natspec contract_name (Natspec.mk userdoc devdoc) }),
                         none)

/-- Left fold over a section's entries that stops at the first raised
exception, returning the state reached at that point (Python mutation
survives the exception). -/
def foldStop {α : Type} (f : CompilationUnit → α → CompilationUnit × Option PyErr) :
    CompilationUnit → List α → CompilationUnit × Option PyErr
  | cu, [] => (cu, none)
  | cu, x :: xs =>
    match f cu x with
    | (cu2, none) => foldStop f cu2 xs
    | (cu2, some e) => (cu2, some e)

/-- hardhat.py lines 111-145: processing of one (path, contracts_info)
entry of the "contracts" section — the entry's own path is resolved
(the quirk override never applies here), the SourceUnit is created (or
reused), and each contained contract is processed in order. -/
def process_contracts_path (resolve : String → String) (cu : CompilationUnit)
    (entry : String × Json) : CompilationUnit × Option PyErr :=
  let filename := resolve entry.1
  let cu1 := create_source_unit cu filename
  match entry.2.items with
  | Except.error e => (cu1, some e)
  | Except.ok cs => foldStop (process_contract filename) cu1 cs

/-- hardhat.py lines 87-109: the guarded "sources" block — when the
output carries a "sources" section its entries are processed in
document order, otherwise nothing happens. -/
def process_sources_section (resolve : String → String) (target : String)
    (build_info : String) (skip : Bool) (cu : CompilationUnit)
    (targets_json : Json) : CompilationUnit × Option PyErr :=
  match targets_json.hasKeyPy "sources" with
  | Except.error e => (cu, some e)
  | Except.ok false => (cu, none)
  | Except.ok true =>
    match targets_json.item "sources" with
    | Except.error e => (cu, some e)
    | Except.ok sourcesVal =>
      match sourcesVal.items with
      | Except.error e => (cu, some e)
      | Except.ok entries =>
          foldStop (process_source_entry resolve target build_info skip) cu entries

/-- hardhat.py lines 111-145: the guarded "contracts" block — when the
output carries a "contracts" section its per-file entries are processed
in document order, otherwise nothing happens. -/
def process_contracts_section (resolve : String → String) (cu : CompilationUnit)
    (targets_json : Json) : CompilationUnit × Option PyErr :=
  match targets_json.hasKeyPy "contracts" with
  | Except.error e => (cu, some e)
  | Except.ok false => (cu, none)
  | Except.ok true =>
    match targets_json.item "contracts" with
    | Except.error e => (cu, some e)
    | Except.ok contractsVal =>
      match contractsVal.items with
      | Except.error e => (cu, some e)
      | Except.ok entries =>
          foldStop (process_contracts_path resolve) cu entries

/-- hardhat.py lines 62-145: processing of one build-info document.
resolve abstracts convert_filename (with relative_to_short and the
working directory fixed), target is the build target, build_info the
document's path (used in error text), uniq_id the document's base name.
Returns the CompilationUnit as built so far together with the raised
exception, if any. -/
def hardhat_like_parsing_doc (resolve : String → String) (target : String)
    (build_info : String) (uniq_id : String) (loaded_json : Json) :
    CompilationUnit × Option PyErr :=
  let cu0 : CompilationUnit := { uniq_id := uniq_id }
  match loaded_json.item "output" with
  | Except.error e => (cu0, some e)
  | Except.ok targets_json =>
  match loaded_json.item "solcVersion" with
  | Except.error e => (cu0, some e)
  | Except.ok version_from_config =>
  match loaded_json.item "input" with
  | Except.error e => (cu0, some e)
  | Except.ok input_json =>
  match input_json.item "language" with
  | Except.error e => (cu0, some e)
  | Except.ok lang =>
  let compiler := if lang.eqStr "Solidity" then "solc" else "vyper"
  match (input_json.item "settings").bind (fun st => st.item "optimizer") with
  | Except.error e => (cu0, some e)
  | Except.ok optimizer =>
  match optimizer.item "enabled" with
  | Except.error e => (cu0, some e)
  | Except.ok optimized =>
  let cv := CompilerVersion.mk compiler version_from_config optimized
  let cu1 := { cu0 with compiler_version := some cv }
  let skip := skip_filename version_from_config
  match process_sources_section resolve target build_info skip cu1 targets_json with
  | (cu2, some e) => (cu2, some e)
  | (cu2, none) => process_contracts_section resolve cu2 targets_json


/-- AST stored for a canonical filename, if the SourceUnit exists. -/
def astOf (cu : CompilationUnit) (j : String) : Option Json :=
  (cu.lookupSU j).map SourceUnit.ast

/-- The bare name is recorded both in the SourceUnit's contract-name
set and in the CompilationUnit's reverse index. -/
def registered (cu : CompilationUnit) (k n : String) : Prop :=
  (∃ su, cu.lookupSU k = some su ∧ n ∈ su.contract_names) ∧ n ∈ ftcNames cu k

/-- The contract record is fully admitted: registered, and every data
mapping (ABI, both bytecodes, both source maps, Natspec) has an entry
for the bare name. -/
def populated (cu : CompilationUnit) (k n : String) : Prop :=
  (∃ su, cu.lookupSU k = some su ∧ n ∈ su.contract_names ∧
    (alookup su.abis n).isSome = true ∧
    (alookup su.bytecodes_init n).isSome = true ∧
    (alookup su.bytecodes_runtime n).isSome = true ∧
    (alookup su.srcmaps_init n).isSome = true ∧
    (alookup su.srcmaps_runtime n).isSome = true ∧
    (alookup su.natspec n).isSome = true) ∧
  n ∈ ftcNames cu k

/-- Simulation relation preserved by every contracts-phase operation:
identity and compiler version unchanged, canonical keys only grow, ASTs
unchanged (a new SourceUnit starts with a null AST), and registration
and population facts are never lost. -/
structure CStep (cu cu2 : CompilationUnit) : Prop where
  uniq : cu2.uniq_id = cu.uniq_id
  cv : cu2.compiler_version = cu.compiler_version
  keys : ∀ j, j ∈ cu.keys → j ∈ cu2.keys
  ast : ∀ j, astOf cu2 j = astOf cu j ∨ (astOf cu j = none ∧ astOf cu2 j = some Json.null)
  reg : ∀ k n, registered cu k n → registered cu2 k n
  pop : ∀ k n, populated cu k n → populated cu2 k n

/-- Simulation relation preserved by every successful sources-phase
step: identity, compiler version and the reverse index unchanged, keys
only grow, and a non-null AST at any key stays non-null. -/
structure SStep (a b : CompilationUnit) : Prop where
  uniq : b.uniq_id = a.uniq_id
  cv : b.compiler_version = a.compiler_version
  ftc : b.filename_to_contracts = a.filename_to_contracts
  keys : ∀ j, j ∈ a.keys → j ∈ b.keys
  ast : ∀ j a2, astOf a j = some a2 → a2.isNull = false →
    ∃ a3, astOf b j = some a3 ∧ a3.isNull = false

/-- Test for the library's compilation-invalid exception kind. -/
def PyErr.isInvalidCompilation : PyErr → Bool
  | PyErr.invalidCompilation _ => true
  | _ => false


/-- Concrete contract info used by the C9 witness. -/
def cinfo9 : Json :=
  Json.obj [("abi", Json.arr []),
    ("evm", Json.obj
      [("bytecode", Json.obj [("object", Json.str "6001"),
        ("sourceMap", Json.str "1:2")]),
       ("deployedBytecode", Json.obj [("object", Json.str "aa"),
        ("sourceMap", Json.str "3:4")])])]

/-- Concrete build-info document used by the C9 witness. -/
def doc9 : List (String × Json) :=
  [("solcVersion", Json.str "0.8.0"),
   ("input", Json.obj [("language", Json.str "Solidity"),
     ("settings", Json.obj [("optimizer", Json.obj [("enabled", Json.bool true)])])]),
   ("output", Json.obj [("contracts", Json.obj [("A.sol",
     Json.obj [("X:A", cinfo9)])])])]

/-- Result of parsing the C9 witness document. -/
def res9 : CompilationUnit × Option PyErr :=
  hardhat_like_parsing_doc id "T" "b" "u" (Json.obj doc9)


/-- Concrete contract info used by the C10 witness. -/
def cinfo10 : Json :=
  Json.obj [("abi", Json.arr []),
    ("evm", Json.obj
      [("bytecode", Json.obj [("object", Json.str "60ff"),
        ("sourceMap", Json.str "7:8;")]),
       ("deployedBytecode", Json.obj [("object", Json.str "bb"),
        ("sourceMap", Json.str "9:1")])])]

/-- Concrete build-info document used by the C10 witness: it has no
"sources" section at all. -/
def doc10 : List (String × Json) :=
  [("solcVersion", Json.str "0.8.0"),
   ("input", Json.obj [("language", Json.str "Solidity"),
     ("settings", Json.obj [("optimizer", Json.obj [("enabled", Json.bool true)])])]),
   ("output", Json.obj [("contracts", Json.obj [("B.sol",
     Json.obj [("Y:B", cinfo10)])])])]

/-- Result of parsing the C10 witness document. -/
def res10 : CompilationUnit × Option PyErr :=
  hardhat_like_parsing_doc id "T" "b" "u" (Json.obj doc10)


/-! Basic lemmas about the association-list operations. -/

theorem alookup_append_some {α : Type} {l1 : List (String × α)} (l2 : List (String × α))
    {k : String} {v : α} (h : alookup l1 k = some v) : alookup (l1 ++ l2) k = some v := by
  induction l1 with
  | nil => simp [alookup] at h
  | cons hd tl ih =>
      obtain ⟨k2, v2⟩ := hd
      simp only [alookup, List.cons_append] at h ⊢
      by_cases hk : k2 = k
      · simpa [hk] using h
      · simp only [hk, if_false] at h ⊢
        exact ih h

theorem alookup_append_none {α : Type} {l1 : List (String × α)} (l2 : List (String × α))
    {k : String} (h : alookup l1 k = none) : alookup (l1 ++ l2) k = alookup l2 k := by
  induction l1 with
  | nil => simp [alookup]
  | cons hd tl ih =>
      obtain ⟨k2, v2⟩ := hd
      simp only [alookup, List.cons_append] at h ⊢
      by_cases hk : k2 = k
      · simp [hk] at h
      · simp only [hk, if_false] at h ⊢
        exact ih h

theorem alookup_setKey {α : Type} (l : List (String × α)) (k : String) (v : α)
    (j : String) : alookup (setKey l k v) j = if j = k then some v else alookup l j := by
  induction l with
  | nil =>
      simp only [setKey, alookup]
      by_cases hj : j = k
      · simp [hj]
      · have hj2 : ¬ k = j := fun h => hj h.symm
        simp [hj, hj2]
  | cons hd tl ih =>
      obtain ⟨k2, v2⟩ := hd
      simp only [setKey]
      by_cases hk : k2 = k
      · subst hk
        by_cases hj : j = k2
        · simp [alookup, hj]
        · have hj2 : ¬ k2 = j := fun h => hj h.symm
          simp [alookup, hj, hj2]
      · simp only [hk, if_false, alookup]
        by_cases hj : k2 = j
        · have hjk : ¬ j = k := fun h => hk (hj.trans h)
          simp [hj, hjk]
        · simp [hj, ih]

theorem alookup_mapAt {α : Type} (l : List (String × α)) (k : String) (f : α → α)
    (j : String) :
    alookup (mapAt l k f) j = if j = k then (alookup l k).map f else alookup l j := by
  induction l with
  | nil => simp [mapAt, alookup]
  | cons hd tl ih =>
      obtain ⟨k2, v2⟩ := hd
      simp only [mapAt]
      by_cases hk : k2 = k
      · subst hk
        by_cases hj : j = k2
        · simp [alookup, hj]
        · have hj2 : ¬ k2 = j := fun h => hj h.symm
          simp [alookup, hj, hj2]
      · simp only [hk, if_false, alookup]
        by_cases hj : k2 = j
        · have hjk : ¬ j = k := fun h => hk (hj.trans h)
          simp [hj, hjk]
        · simp [hj, ih]

theorem mapAt_map_fst {α : Type} (l : List (String × α)) (k : String) (f : α → α) :
    (mapAt l k f).map Prod.fst = l.map Prod.fst := by
  induction l with
  | nil => rfl
  | cons hd tl ih =>
      obtain ⟨k2, v2⟩ := hd
      simp only [mapAt]
      by_cases hk : k2 = k
      · simp [hk]
      · simp [hk, ih]

theorem mem_map_fst_iff {α : Type} (l : List (String × α)) (j : String) :
    j ∈ l.map Prod.fst ↔ (alookup l j).isSome = true := by
  induction l with
  | nil => simp [alookup]
  | cons hd tl ih =>
      obtain ⟨k2, v2⟩ := hd
      simp only [List.map_cons, List.mem_cons, alookup]
      by_cases hk : k2 = j
      · simp [hk]
      · have hk2 : ¬ j = k2 := fun h => hk h.symm
        simp [hk2, hk, ih]

/-! Lemmas about the model operations. -/

theorem mem_keys_iff (cu : CompilationUnit) (j : String) :
    j ∈ cu.keys ↔ (cu.lookupSU j).isSome = true :=
  mem_map_fst_iff cu.source_units j

theorem create_lookup (cu : CompilationUnit) (k j : String) :
    (create_source_unit cu k).lookupSU j =
      if j = k then some ((cu.lookupSU k).getD {}) else cu.lookupSU j := by
  unfold create_source_unit CompilationUnit.lookupSU
  cases h : alookup cu.source_units k with
  | some su =>
      by_cases hj : j = k
      · simp [hj, CompilationUnit.lookupSU, h]
      · simp [hj]
  | none =>
      by_cases hj : j = k
      · subst hj
        simp [alookup_append_none _ h, alookup, CompilationUnit.lookupSU, h]
      · cases h2 : alookup cu.source_units j with
        | some su2 => simp [hj, alookup_append_some _ h2, CompilationUnit.lookupSU, h2]
        | none =>
            have hj2 : ¬ k = j := fun hh => hj hh.symm
            simp [hj, alookup_append_none _ h2, alookup, CompilationUnit.lookupSU, h2, hj2]

theorem create_uniq (cu : CompilationUnit) (k : String) :
    (create_source_unit cu k).uniq_id = cu.uniq_id := by
  unfold create_source_unit
  cases alookup cu.source_units k <;> rfl

theorem create_cv (cu : CompilationUnit) (k : String) :
    (create_source_unit cu k).compiler_version = cu.compiler_version := by
  unfold create_source_unit
  cases alookup cu.source_units k <;> rfl

theorem create_ftc (cu : CompilationUnit) (k : String) :
    (create_source_unit cu k).filename_to_contracts = cu.filename_to_contracts := by
  unfold create_source_unit
  cases alookup cu.source_units k <;> rfl

theorem create_keys_mem (cu : CompilationUnit) (k j : String) :
    j ∈ (create_source_unit cu k).keys ↔ j ∈ cu.keys ∨ j = k := by
  rw [mem_keys_iff, mem_keys_iff, create_lookup]
  by_cases hj : j = k
  · simp [hj]
  · simp [hj]

theorem usu_lookup (cu : CompilationUnit) (k : String) (f : SourceUnit → SourceUnit)
    (j : String) :
    (updateSourceUnit cu k f).lookupSU j =
      if j = k then (cu.lookupSU k).map f else cu.lookupSU j :=
  alookup_mapAt cu.source_units k f j

theorem usu_keys (cu : CompilationUnit) (k : String) (f : SourceUnit → SourceUnit) :
    (updateSourceUnit cu k f).keys = cu.keys :=
  mapAt_map_fst cu.source_units k f

theorem usu_uniq (cu : CompilationUnit) (k : String) (f : SourceUnit → SourceUnit) :
    (updateSourceUnit cu k f).uniq_id = cu.uniq_id := rfl

theorem usu_cv (cu : CompilationUnit) (k : String) (f : SourceUnit → SourceUnit) :
    (updateSourceUnit cu k f).compiler_version = cu.compiler_version := rfl

theorem usu_ftc (cu : CompilationUnit) (k : String) (f : SourceUnit → SourceUnit) :
    (updateSourceUnit cu k f).filename_to_contracts = cu.filename_to_contracts := rfl

theorem afc_su (cu : CompilationUnit) (k n : String) :
    (add_filename_contract cu k n).source_units = cu.source_units := rfl

theorem afc_uniq (cu : CompilationUnit) (k n : String) :
    (add_filename_contract cu k n).uniq_id = cu.uniq_id := rfl

theorem afc_cv (cu : CompilationUnit) (k n : String) :
    (add_filename_contract cu k n).compiler_version = cu.compiler_version := rfl

theorem mem_ftcNames_afc (cu : CompilationUnit) (k n j m : String) :
    m ∈ ftcNames (add_filename_contract cu k n) j ↔
      m ∈ ftcNames cu j ∨ (j = k ∧ m = n) := by
  simp only [add_filename_contract, ftcNames]
  rw [alookup_setKey]
  by_cases hj : j = k
  · subst hj
    rw [if_pos rfl, Option.getD_some]
    by_cases hn : n ∈ (alookup cu.filename_to_contracts j).getD []
    · rw [if_pos hn]
      constructor
      · intro h
        exact Or.inl h
      · rintro (h | ⟨-, rfl⟩)
        · exact h
        · exact hn
    · rw [if_neg hn]
      simp only [List.mem_append, List.mem_singleton]
      constructor
      · rintro (h | rfl)
        · exact Or.inl h
        · exact Or.inr (by simp)
      · rintro (h | ⟨-, rfl⟩)
        · exact Or.inl h
        · exact Or.inr rfl
  · rw [if_neg hj]
    simp [hj]

theorem registered_of_populated {cu : CompilationUnit} {k n : String}
    (h : populated cu k n) : registered cu k n := by
  obtain ⟨⟨su, hsu, hmem, -, -, -, -, -, -⟩, hftc⟩ := h
  exact ⟨⟨su, hsu, hmem⟩, hftc⟩

theorem CStep_refl (cu : CompilationUnit) : CStep cu cu :=
  ⟨rfl, rfl, fun _ h => h, fun _ => Or.inl rfl, fun _ _ h => h, fun _ _ h => h⟩

theorem CStep_trans {a b c : CompilationUnit} (hab : CStep a b) (hbc : CStep b c) :
    CStep a c := by
  refine ⟨hbc.uniq.trans hab.uniq, hbc.cv.trans hab.cv,
    fun j hj => hbc.keys j (hab.keys j hj), ?_,
    fun k n h => hbc.reg k n (hab.reg k n h),
    fun k n h => hbc.pop k n (hab.pop k n h)⟩
  intro j
  rcases hbc.ast j with hc | ⟨hbn, hcn⟩
  · rcases hab.ast j with hb | ⟨han, hbn⟩
    · exact Or.inl (hc.trans hb)
    · exact Or.inr ⟨han, hc.trans hbn⟩
  · rcases hab.ast j with hb | ⟨han, hbn2⟩
    · exact Or.inr ⟨hb.symm.trans hbn, hcn⟩
    · rw [hbn2] at hbn
      exact absurd hbn (by simp)

theorem ftcNames_create (cu : CompilationUnit) (k j : String) :
    ftcNames (create_source_unit cu k) j = ftcNames cu j := by
  unfold ftcNames
  rw [create_ftc]

theorem CStep_update (cu : CompilationUnit) (k : String) (f : SourceUnit → SourceUnit)
    (hast : ∀ su, (f su).ast = su.ast)
    (hnames : ∀ su n, n ∈ su.contract_names → n ∈ (f su).contract_names)
    (habis : ∀ su n, (alookup su.abis n).isSome = true →
      (alookup (f su).abis n).isSome = true)
    (hbi : ∀ su n, (alookup su.bytecodes_init n).isSome = true →
      (alookup (f su).bytecodes_init n).isSome = true)
    (hbr : ∀ su n, (alookup su.bytecodes_runtime n).isSome = true →
      (alookup (f su).bytecodes_runtime n).isSome = true)
    (hsi : ∀ su n, (alookup su.srcmaps_init n).isSome = true →
      (alookup (f su).srcmaps_init n).isSome = true)
    (hsr : ∀ su n, (alookup su.srcmaps_runtime n).isSome = true →
      (alookup (f su).srcmaps_runtime n).isSome = true)
    (hns : ∀ su n, (alookup su.natspec n).isSome = true →
      (alookup (f su).natspec n).isSome = true) :
    CStep cu (updateSourceUnit cu k f) := by
  refine ⟨rfl, rfl, ?_, ?_, ?_, ?_⟩
  · intro j hj
    have h : (updateSourceUnit cu k f).keys = cu.keys := usu_keys cu k f
    rw [h]
    exact hj
  · intro j
    unfold astOf
    rw [usu_lookup]
    by_cases hj : j = k
    · subst hj
      left
      cases hcu : cu.lookupSU j with
      | some su => simp [hast]
      | none => simp
    · left
      rw [if_neg hj]
  · rintro k2 n ⟨⟨su, hsu, hmem⟩, hftc⟩
    refine ⟨?_, hftc⟩
    by_cases hj : k2 = k
    · subst hj
      refine ⟨f su, ?_, hnames su n hmem⟩
      rw [usu_lookup, if_pos rfl, hsu]
      rfl
    · refine ⟨su, ?_, hmem⟩
      rw [usu_lookup, if_neg hj]
      exact hsu
  · rintro k2 n ⟨⟨su, hsu, hmem, h1, h2, h3, h4, h5, h6⟩, hftc⟩
    refine ⟨?_, hftc⟩
    by_cases hj : k2 = k
    · subst hj
      refine ⟨f su, ?_, hnames su n hmem, habis su n h1, hbi su n h2, hbr su n h3,
        hsi su n h4, hsr su n h5, hns su n h6⟩
      rw [usu_lookup, if_pos rfl, hsu]
      rfl
    · refine ⟨su, ?_, hmem, h1, h2, h3, h4, h5, h6⟩
      rw [usu_lookup, if_neg hj]
      exact hsu

theorem CStep_create (cu : CompilationUnit) (k : String) :
    CStep cu (create_source_unit cu k) := by
  refine ⟨create_uniq cu k, create_cv cu k, ?_, ?_, ?_, ?_⟩
  · intro j hj
    rw [create_keys_mem]
    exact Or.inl hj
  · intro j
    unfold astOf
    rw [create_lookup]
    by_cases hj : j = k
    · subst hj
      cases hcu : cu.lookupSU j with
      | some su => simp [hcu]
      | none =>
          right
          refine ⟨by simp [hcu], ?_⟩
          rw [if_pos rfl]
          rfl
    · left
      rw [if_neg hj]
  · rintro k2 n ⟨⟨su, hsu, hmem⟩, hftc⟩
    refine ⟨⟨su, ?_, hmem⟩, ?_⟩
    · rw [create_lookup]
      by_cases hj : k2 = k
      · subst hj
        rw [if_pos rfl, hsu]
        rfl
      · rw [if_neg hj]
        exact hsu
    · rw [ftcNames_create]
      exact hftc
  · rintro k2 n ⟨⟨su, hsu, hmem, h1, h2, h3, h4, h5, h6⟩, hftc⟩
    refine ⟨⟨su, ?_, hmem, h1, h2, h3, h4, h5, h6⟩, ?_⟩
    · rw [create_lookup]
      by_cases hj : k2 = k
      · subst hj
        rw [if_pos rfl, hsu]
        rfl
      · rw [if_neg hj]
        exact hsu
    · rw [ftcNames_create]
      exact hftc

theorem CStep_afc (cu : CompilationUnit) (k n : String) :
    CStep cu (add_filename_contract cu k n) := by
  refine ⟨rfl, rfl, ?_, ?_, ?_, ?_⟩
  · intro j hj
    exact hj
  · intro j
    left
    rfl
  · rintro k2 m ⟨⟨su, hsu, hmem⟩, hftc⟩
    exact ⟨⟨su, hsu, hmem⟩, (mem_ftcNames_afc cu k n k2 m).mpr (Or.inl hftc)⟩
  · rintro k2 m ⟨⟨su, hsu, hmem, h1, h2, h3, h4, h5, h6⟩, hftc⟩
    exact ⟨⟨su, hsu, hmem, h1, h2, h3, h4, h5, h6⟩,
      (mem_ftcNames_afc cu k n k2 m).mpr (Or.inl hftc)⟩

theorem acn_ast (su : SourceUnit) (n : String) :
    (add_contract_name su n).ast = su.ast := by
  unfold add_contract_name
  split <;> rfl

theorem acn_mem (su : SourceUnit) (n : String) :
    n ∈ (add_contract_name su n).contract_names := by
  unfold add_contract_name
  by_cases hn : n ∈ su.contract_names
  · rw [if_pos hn]
    exact hn
  · rw [if_neg hn]
    simp

theorem acn_mem_mono (su : SourceUnit) (n m : String) (h : m ∈ su.contract_names) :
    m ∈ (add_contract_name su n).contract_names := by
  unfold add_contract_name
  by_cases hn : n ∈ su.contract_names
  · simpa [hn] using h
  · simp [hn, h]

theorem CStep_register (fn : String) (cu : CompilationUnit) (raw : String) :
    CStep cu (register_contract fn cu raw) := by
  unfold register_contract
  refine CStep_trans ?_ (CStep_afc _ fn (extract_name raw))
  refine CStep_update cu fn _ ?_ ?_ ?_ ?_ ?_ ?_ ?_ ?_
  · intro su
    exact acn_ast su (extract_name raw)
  · intro su n h
    exact acn_mem_mono su (extract_name raw) n h
  all_goals
    intro su n h
    unfold add_contract_name
    split <;> simpa using h

theorem registered_register (fn : String) (cu : CompilationUnit) (raw : String)
    (h : (cu.lookupSU fn).isSome = true) :
    registered (register_contract fn cu raw) fn (extract_name raw) := by
  rw [Option.isSome_iff_exists] at h
  obtain ⟨su, hsu⟩ := h
  refine ⟨⟨add_contract_name su (extract_name raw), ?_, acn_mem su (extract_name raw)⟩, ?_⟩
  · show (updateSourceUnit cu fn
      (fun su => add_contract_name su (extract_name raw))).lookupSU fn = _
    rw [usu_lookup, if_pos rfl, hsu]
    rfl
  · exact (mem_ftcNames_afc _ fn (extract_name raw) fn (extract_name raw)).mpr
      (Or.inr ⟨rfl, rfl⟩)


theorem isSome_setKey {α : Type} (l : List (String × α)) (n m : String) (v : α)
    (h : (alookup l m).isSome = true) : (alookup (setKey l n v) m).isSome = true := by
  rw [alookup_setKey]
  by_cases hm : m = n <;> simp [hm, h]

theorem alookup_setKey_self {α : Type} (l : List (String × α)) (n : String) (v : α) :
    alookup (setKey l n v) n = some v := by
  rw [alookup_setKey, if_pos rfl]

theorem CStep_upd_abis (cu : CompilationUnit) (fn n : String) (v : Json) :
    CStep cu (updateSourceUnit cu fn (fun su => { su with abis := setKey su.abis n v })) := by
  refine CStep_update cu fn _ (fun su => rfl) (fun su m h => h) ?_ ?_ ?_ ?_ ?_ ?_ <;>
      intro su m h <;>
    first
      | exact h
      | exact isSome_setKey _ n m _ h

theorem CStep_upd_binit (cu : CompilationUnit) (fn n : String) (v : Json) :
    CStep cu (updateSourceUnit cu fn
      (fun su => { su with bytecodes_init := setKey su.bytecodes_init n v })) := by
  refine CStep_update cu fn _ (fun su => rfl) (fun su m h => h) ?_ ?_ ?_ ?_ ?_ ?_ <;>
      intro su m h <;>
    first
      | exact h
      | exact isSome_setKey _ n m _ h

theorem CStep_upd_brun (cu : CompilationUnit) (fn n : String) (v : Json) :
    CStep cu (updateSourceUnit cu fn
      (fun su => { su with bytecodes_runtime := setKey su.bytecodes_runtime n v })) := by
  refine CStep_update cu fn _ (fun su => rfl) (fun su m h => h) ?_ ?_ ?_ ?_ ?_ ?_ <;>
      intro su m h <;>
    first
      | exact h
      | exact isSome_setKey _ n m _ h

theorem CStep_upd_sinit (cu : CompilationUnit) (fn n : String) (v : List String) :
    CStep cu (updateSourceUnit cu fn
      (fun su => { su with srcmaps_init := setKey su.srcmaps_init n v })) := by
  refine CStep_update cu fn _ (fun su => rfl) (fun su m h => h) ?_ ?_ ?_ ?_ ?_ ?_ <;>
      intro su m h <;>
    first
      | exact h
      | exact isSome_setKey _ n m _ h

theorem CStep_upd_srun (cu : CompilationUnit) (fn n : String) (v : List String) :
    CStep cu (updateSourceUnit cu fn
      (fun su => { su with srcmaps_runtime := setKey su.srcmaps_runtime n v })) := by
  refine CStep_update cu fn _ (fun su => rfl) (fun su m h => h) ?_ ?_ ?_ ?_ ?_ ?_ <;>
      intro su m h <;>
    first
      | exact h
      | exact isSome_setKey _ n m _ h

theorem CStep_upd_natspec (cu : CompilationUnit) (fn n : String) (v : Natspec) :
    CStep cu (updateSourceUnit cu fn
      (fun su => { su with natspec := setKey su.natspec n v })) := by
  refine CStep_update cu fn _ (fun su => rfl) (fun su m h => h) ?_ ?_ ?_ ?_ ?_ ?_ <;>
      intro su m h <;>
    first
      | exact h
      | exact isSome_setKey _ n m _ h

set_option maxHeartbeats 2000000 in
theorem CStep_pc_tail (fn : String) (cu : CompilationUnit) (e : String × Json) :
    CStep (register_contract fn cu e.1) (process_contract fn cu e).1 := by
  unfold process_contract
  dsimp only
  repeat' split
  all_goals
    first
      | exact CStep_refl _
      | exact CStep_upd_abis _ _ _ _
      | exact CStep_trans (CStep_upd_abis _ _ _ _) (CStep_upd_binit _ _ _ _)
      | exact CStep_trans (CStep_trans (CStep_upd_abis _ _ _ _)
          (CStep_upd_binit _ _ _ _)) (CStep_upd_brun _ _ _ _)
      | exact CStep_trans (CStep_trans (CStep_trans (CStep_upd_abis _ _ _ _)
          (CStep_upd_binit _ _ _ _)) (CStep_upd_brun _ _ _ _))
          (CStep_upd_sinit _ _ _ _)
      | exact CStep_trans (CStep_trans (CStep_trans (CStep_trans
          (CStep_upd_abis _ _ _ _) (CStep_upd_binit _ _ _ _))
          (CStep_upd_brun _ _ _ _)) (CStep_upd_sinit _ _ _ _))
          (CStep_upd_srun _ _ _ _)
      | exact CStep_trans (CStep_trans (CStep_trans (CStep_trans (CStep_trans
          (CStep_upd_abis _ _ _ _) (CStep_upd_binit _ _ _ _))
          (CStep_upd_brun _ _ _ _)) (CStep_upd_sinit _ _ _ _))
          (CStep_upd_srun _ _ _ _)) (CStep_upd_natspec _ _ _ _)

theorem CStep_pc (fn : String) (cu : CompilationUnit) (e : String × Json) :
    CStep cu (process_contract fn cu e).1 :=
  CStep_trans (CStep_register fn cu e.1) (CStep_pc_tail fn cu e)

theorem pc_registered_any (fn : String) (cu : CompilationUnit) (e : String × Json)
    (h : (cu.lookupSU fn).isSome = true) :
    registered (process_contract fn cu e).1 fn (extract_name e.1) :=
  (CStep_pc_tail fn cu e).reg fn (extract_name e.1) (registered_register fn cu e.1 h)


theorem item_error_kind {j : Json} {k : String} {e : PyErr}
    (h : j.item k = Except.error e) : e = PyErr.keyError k ∨ e = PyErr.typeError := by
  cases j <;> simp only [Json.item] at h
  case obj kvs =>
    cases halk : alookup kvs k with
    | some v => rw [halk] at h; simp at h
    | none =>
        rw [halk] at h
        injection h with h2
        exact Or.inl h2.symm
  all_goals
    injection h with h2
    exact Or.inr h2.symm

theorem dictGet_error_kind {j d : Json} {k : String} {e : PyErr}
    (h : j.dictGet k d = Except.error e) : e = PyErr.attributeError := by
  cases j <;> simp only [Json.dictGet] at h
  case obj kvs =>
    cases halk : alookup kvs k with
    | some v => rw [halk] at h; simp at h
    | none => rw [halk] at h; simp at h
  all_goals
    injection h with h2
    exact h2.symm

theorem items_error_kind {j : Json} {e : PyErr}
    (h : j.items = Except.error e) : e = PyErr.attributeError := by
  cases j <;> simp only [Json.items] at h
  all_goals
    first
      | (injection h with h2
         exact h2.symm)
      | injection h

theorem splitSemicolons_error_kind {j : Json} {e : PyErr}
    (h : j.splitSemicolons = Except.error e) : e = PyErr.attributeError := by
  cases j <;> simp only [Json.splitSemicolons] at h
  all_goals
    first
      | (injection h with h2
         exact h2.symm)
      | injection h

theorem splitSemicolons_ok {j : Json} {l : List String}
    (h : j.splitSemicolons = Except.ok l) : ∃ s, j = Json.str s ∧ l = pySplit s ';' := by
  cases j <;> simp only [Json.splitSemicolons] at h
  case str s =>
    injection h with h2
    exact ⟨s, rfl, h2.symm⟩
  all_goals injection h

theorem except_bind_error {α β : Type} {a : Except PyErr α} {f : α → Except PyErr β}
    {e : PyErr} (h : a.bind f = Except.error e) :
    a = Except.error e ∨ ∃ v, a = Except.ok v ∧ f v = Except.error e := by
  cases a with
  | error e2 =>
      left
      simp only [Except.bind] at h
      injection h with h2
      rw [h2]
  | ok v =>
      right
      refine ⟨v, rfl, ?_⟩
      simpa [Except.bind] using h

theorem notInv_item {j : Json} {k : String} {e : PyErr}
    (h : j.item k = Except.error e) : ∀ m, e ≠ PyErr.invalidCompilation m := by
  rcases item_error_kind h with rfl | rfl <;> intro m hm <;> simp at hm

theorem notInv_dictGet {j d : Json} {k : String} {e : PyErr}
    (h : j.dictGet k d = Except.error e) : ∀ m, e ≠ PyErr.invalidCompilation m := by
  rcases dictGet_error_kind h with rfl
  intro m hm
  simp at hm

theorem notInv_items {j : Json} {e : PyErr}
    (h : j.items = Except.error e) : ∀ m, e ≠ PyErr.invalidCompilation m := by
  rcases items_error_kind h with rfl
  intro m hm
  simp at hm

theorem notInv_splitSemicolons {j : Json} {e : PyErr}
    (h : j.splitSemicolons = Except.error e) : ∀ m, e ≠ PyErr.invalidCompilation m := by
  rcases splitSemicolons_error_kind h with rfl
  intro m hm
  simp at hm

theorem notInv_bind_item {a : Except PyErr Json} {k : String} {e : PyErr}
    (ha : ∀ e2, a = Except.error e2 → ∀ m, e2 ≠ PyErr.invalidCompilation m)
    (h : a.bind (fun x => Json.item x k) = Except.error e) :
    ∀ m, e ≠ PyErr.invalidCompilation m := by
  rcases except_bind_error h with h1 | ⟨v, -, h2⟩
  · exact ha e h1
  · exact notInv_item h2

theorem lookup_usu_self {cu : CompilationUnit} {fn : String} {su : SourceUnit}
    (f : SourceUnit → SourceUnit) (h : cu.lookupSU fn = some su) :
    (updateSourceUnit cu fn f).lookupSU fn = some (f su) := by
  rw [usu_lookup, if_pos rfl, h]
  rfl

theorem lookup_register {cu : CompilationUnit} {fn : String} {su : SourceUnit}
    (raw : String) (h : cu.lookupSU fn = some su) :
    (register_contract fn cu raw).lookupSU fn =
      some (add_contract_name su (extract_name raw)) := by
  show (updateSourceUnit cu fn
    (fun s => add_contract_name s (extract_name raw))).lookupSU fn = _
  exact lookup_usu_self _ h

theorem ftc_register (fn : String) (cu : CompilationUnit) (raw : String) :
    extract_name raw ∈ ftcNames (register_contract fn cu raw) fn :=
  (mem_ftcNames_afc _ fn (extract_name raw) fn (extract_name raw)).mpr
    (Or.inr ⟨rfl, rfl⟩)


theorem pc_ok_state (fn : String) (cu : CompilationUnit) (raw : String) (info : Json)
    {su : SourceUnit} (hsu : cu.lookupSU fn = some su)
    {abi bc iobj db robj ud dd : Json} {s1 s2 : String}
    (habi : info.item "abi" = Except.ok abi)
    (hbc : (info.item "evm").bind (fun evm => evm.item "bytecode") = Except.ok bc)
    (hio : bc.item "object" = Except.ok iobj)
    (hdb : (info.item "evm").bind (fun evm => evm.item "deployedBytecode") = Except.ok db)
    (hro : db.item "object" = Except.ok robj)
    (hs1 : bc.item "sourceMap" = Except.ok (Json.str s1))
    (hs2 : db.item "sourceMap" = Except.ok (Json.str s2))
    (hud : info.dictGet "userdoc" (Json.obj []) = Except.ok ud)
    (hdd : info.dictGet "devdoc" (Json.obj []) = Except.ok dd) :
    (process_contract fn cu (raw, info)).2 = none ∧
    ∃ su2, (process_contract fn cu (raw, info)).1.lookupSU fn = some su2 ∧
      extract_name raw ∈ su2.contract_names ∧
      alookup su2.abis (extract_name raw) = some abi ∧
      alookup su2.bytecodes_init (extract_name raw) = some iobj ∧
      alookup su2.bytecodes_runtime (extract_name raw) = some robj ∧
      alookup su2.srcmaps_init (extract_name raw) = some (pySplit s1 ';') ∧
      alookup su2.srcmaps_runtime (extract_name raw) = some (pySplit s2 ';') ∧
      alookup su2.natspec (extract_name raw) = some (Natspec.mk ud dd) ∧
      su2.ast = su.ast ∧
      extract_name raw ∈ ftcNames (process_contract fn cu (raw, info)).1 fn := by
  unfold process_contract
  simp only [habi, hbc, hio, hdb, hro, hud, hdd]
  simp only [Except.bind, hs1, hs2, Json.splitSemicolons]
  have hreg := lookup_register raw hsu
  have l3 := lookup_usu_self
    (fun s => { s with abis := setKey s.abis (extract_name raw) abi }) hreg
  have l4 := lookup_usu_self
    (fun s => { s with bytecodes_init := setKey s.bytecodes_init (extract_name raw) iobj }) l3
  have l5 := lookup_usu_self
    (fun s => { s with bytecodes_runtime := setKey s.bytecodes_runtime (extract_name raw) robj }) l4
  have l6 := lookup_usu_self
    (fun s => { s with srcmaps_init := setKey s.srcmaps_init (extract_name raw) (pySplit s1 ';') }) l5
  have l7 := lookup_usu_self
    (fun s => { s with srcmaps_runtime := setKey s.srcmaps_runtime (extract_name raw) (pySplit s2 ';') }) l6
  have l8 := lookup_usu_self
    (fun s => { s with natspec := setKey s.natspec (extract_name raw) (Natspec.mk ud dd) }) l7
  refine ⟨by trivial, _, l8, ?_, ?_, ?_, ?_, ?_, ?_, ?_, ?_, ?_⟩
  · exact acn_mem su (extract_name raw)
  · exact alookup_setKey_self _ _ _
  · exact alookup_setKey_self _ _ _
  · exact alookup_setKey_self _ _ _
  · exact alookup_setKey_self _ _ _
  · exact alookup_setKey_self _ _ _
  · exact alookup_setKey_self _ _ _
  · exact acn_ast su (extract_name raw)
  · exact ftc_register fn cu raw


theorem pc_success_inv (fn : String) (cu : CompilationUnit) (e : String × Json)
    (h : (process_contract fn cu e).2 = none) :
    ∃ abi bc iobj db robj s1 s2 ud dd,
      e.2.item "abi" = Except.ok abi ∧
      (e.2.item "evm").bind (fun evm => evm.item "bytecode") = Except.ok bc ∧
      bc.item "object" = Except.ok iobj ∧
      (e.2.item "evm").bind (fun evm => evm.item "deployedBytecode") = Except.ok db ∧
      db.item "object" = Except.ok robj ∧
      bc.item "sourceMap" = Except.ok (Json.str s1) ∧
      db.item "sourceMap" = Except.ok (Json.str s2) ∧
      e.2.dictGet "userdoc" (Json.obj []) = Except.ok ud ∧
      e.2.dictGet "devdoc" (Json.obj []) = Except.ok dd := by
  unfold process_contract at h
  dsimp only at h
  rcases h1 : e.2.item "abi" with e1 | abi
  · rw [h1] at h
    simp at h
  rw [h1] at h
  dsimp only at h
  rcases h2 : (e.2.item "evm").bind (fun evm => evm.item "bytecode") with e2 | bc
  · rw [h2] at h
    simp at h
  rw [h2] at h
  dsimp only at h
  rcases h3 : bc.item "object" with e3 | iobj
  · rw [h3] at h
    simp at h
  rw [h3] at h
  dsimp only at h
  rcases h4 : (e.2.item "evm").bind (fun evm => evm.item "deployedBytecode") with e4 | db
  · rw [h4] at h
    simp at h
  rw [h4] at h
  dsimp only at h
  rcases h5 : db.item "object" with e5 | robj
  · rw [h5] at h
    simp at h
  rw [h5] at h
  dsimp only at h
  simp only [Except.bind] at h
  rcases h6 : bc.item "sourceMap" with e6 | smv
  · rw [h6] at h
    simp at h
  rw [h6] at h
  dsimp only at h
  rcases h7 : smv.splitSemicolons with e7 | sml
  · rw [h7] at h
    simp at h
  rw [h7] at h
  dsimp only at h
  rcases h8 : db.item "sourceMap" with e8 | smv2
  · rw [h8] at h
    simp at h
  rw [h8] at h
  dsimp only at h
  rcases h9 : smv2.splitSemicolons with e9 | sml2
  · rw [h9] at h
    simp at h
  rw [h9] at h
  dsimp only at h
  rcases h10 : e.2.dictGet "userdoc" (Json.obj []) with e10 | ud
  · rw [h10] at h
    simp at h
  rw [h10] at h
  dsimp only at h
  rcases h11 : e.2.dictGet "devdoc" (Json.obj []) with e11 | dd
  · rw [h11] at h
    simp at h
  obtain ⟨s1, rfl, -⟩ := splitSemicolons_ok h7
  obtain ⟨s2, rfl, -⟩ := splitSemicolons_ok h9
  exact ⟨abi, bc, iobj, db, robj, s1, s2, ud, dd, rfl, rfl, h3, rfl, h5, h6, h8, rfl, rfl⟩


theorem pc_error_kind (fn : String) (cu : CompilationUnit) (e : String × Json)
    {err : PyErr} (h : (process_contract fn cu e).2 = some err) :
    ∀ m, err ≠ PyErr.invalidCompilation m := by
  unfold process_contract at h
  dsimp only at h
  rcases h1 : e.2.item "abi" with e1 | abi
  · rw [h1] at h
    dsimp only at h
    injection h with hinj
    subst hinj
    exact notInv_item h1
  rw [h1] at h
  dsimp only at h
  rcases h2 : (e.2.item "evm").bind (fun evm => evm.item "bytecode") with e2 | bc
  · rw [h2] at h
    dsimp only at h
    injection h with hinj
    subst hinj
    exact notInv_bind_item (fun e2 hh => notInv_item hh) h2
  rw [h2] at h
  dsimp only at h
  rcases h3 : bc.item "object" with e3 | iobj
  · rw [h3] at h
    dsimp only at h
    injection h with hinj
    subst hinj
    exact notInv_item h3
  rw [h3] at h
  dsimp only at h
  rcases h4 : (e.2.item "evm").bind (fun evm => evm.item "deployedBytecode") with e4 | db
  · rw [h4] at h
    dsimp only at h
    injection h with hinj
    subst hinj
    exact notInv_bind_item (fun e2 hh => notInv_item hh) h4
  rw [h4] at h
  dsimp only at h
  rcases h5 : db.item "object" with e5 | robj
  · rw [h5] at h
    dsimp only at h
    injection h with hinj
    subst hinj
    exact notInv_item h5
  rw [h5] at h
  dsimp only at h
  simp only [Except.bind] at h
  rcases h6 : bc.item "sourceMap" with e6 | smv
  · rw [h6] at h
    dsimp only at h
    injection h with hinj
    subst hinj
    exact notInv_item h6
  rw [h6] at h
  dsimp only at h
  rcases h7 : smv.splitSemicolons with e7 | sml
  · rw [h7] at h
    dsimp only at h
    injection h with hinj
    subst hinj
    exact notInv_splitSemicolons h7
  rw [h7] at h
  dsimp only at h
  rcases h8 : db.item "sourceMap" with e8 | smv2
  · rw [h8] at h
    dsimp only at h
    injection h with hinj
    subst hinj
    exact notInv_item h8
  rw [h8] at h
  dsimp only at h
  rcases h9 : smv2.splitSemicolons with e9 | sml2
  · rw [h9] at h
    dsimp only at h
    injection h with hinj
    subst hinj
    exact notInv_splitSemicolons h9
  rw [h9] at h
  dsimp only at h
  rcases h10 : e.2.dictGet "userdoc" (Json.obj []) with e10 | ud
  · rw [h10] at h
    dsimp only at h
    injection h with hinj
    subst hinj
    exact notInv_dictGet h10
  rw [h10] at h
  dsimp only at h
  rcases h11 : e.2.dictGet "devdoc" (Json.obj []) with e11 | dd
  · rw [h11] at h
    dsimp only at h
    injection h with hinj
    subst hinj
    exact notInv_dictGet h11
  rw [h11] at h
  dsimp only at h
  simp at h

theorem pc_success_populated (fn : String) (cu : CompilationUnit) (e : String × Json)
    (h : (process_contract fn cu e).2 = none)
    (hfn : (cu.lookupSU fn).isSome = true) :
    populated (process_contract fn cu e).1 fn (extract_name e.1) := by
  obtain ⟨abi, bc, iobj, db, robj, s1, s2, ud, dd,
    habi, hbc, hio, hdb, hro, hs1, hs2, hud, hdd⟩ := pc_success_inv fn cu e h
  rw [Option.isSome_iff_exists] at hfn
  obtain ⟨su, hsu⟩ := hfn
  obtain ⟨raw, info⟩ := e
  obtain ⟨-, su2, hl, hmem, ha, hb, hc, hd, he2, hf, -, hftc⟩ :=
    pc_ok_state fn cu raw info hsu habi hbc hio hdb hro hs1 hs2 hud hdd
  exact ⟨⟨su2, hl, hmem, by simp [ha], by simp [hb], by simp [hc], by simp [hd],
    by simp [he2], by simp [hf]⟩, hftc⟩


theorem foldStop_rel_success {α : Type}
    (f : CompilationUnit → α → CompilationUnit × Option PyErr)
    (R : CompilationUnit → CompilationUnit → Prop)
    (hrefl : ∀ cu, R cu cu)
    (htrans : ∀ a b c, R a b → R b c → R a c)
    (hstep : ∀ cu x cu2, f cu x = (cu2, none) → R cu cu2) :
    ∀ l cu cu2, foldStop f cu l = (cu2, none) → R cu cu2 := by
  intro l
  induction l with
  | nil =>
      intro cu cu2 h
      unfold foldStop at h
      injection h with h1 h2
      subst h1
      exact hrefl cu
  | cons x xs ih =>
      intro cu cu2 h
      unfold foldStop at h
      rcases hf : f cu x with ⟨cuh, errh⟩
      rw [hf] at h
      cases errh with
      | none =>
          dsimp only at h
          exact htrans _ _ _ (hstep cu x cuh hf) (ih cuh cu2 h)
      | some e2 =>
          dsimp only at h
          injection h with h1 h2
          simp at h2

theorem foldStop_success_all {α : Type}
    (f : CompilationUnit → α → CompilationUnit × Option PyErr)
    (R : CompilationUnit → CompilationUnit → Prop)
    (P : CompilationUnit → α → Prop)
    (Q : CompilationUnit → Prop)
    (hrefl : ∀ cu, R cu cu)
    (htrans : ∀ a b c, R a b → R b c → R a c)
    (hstep : ∀ cu x cu2, f cu x = (cu2, none) → R cu cu2)
    (hQ : ∀ cu x cu2, f cu x = (cu2, none) → Q cu → Q cu2)
    (hP : ∀ cu x cu2, Q cu → f cu x = (cu2, none) → P cu2 x)
    (hPmono : ∀ a b x, R a b → P a x → P b x) :
    ∀ l cu cu2, Q cu → foldStop f cu l = (cu2, none) → ∀ x2, x2 ∈ l → P cu2 x2 := by
  intro l
  induction l with
  | nil =>
      intro cu cu2 hq h x2 hx2
      simp at hx2
  | cons x xs ih =>
      intro cu cu2 hq h x2 hx2
      unfold foldStop at h
      rcases hf : f cu x with ⟨cuh, errh⟩
      rw [hf] at h
      cases errh with
      | none =>
          dsimp only at h
          rcases List.mem_cons.mp hx2 with rfl | hx2
          · exact hPmono cuh cu2 x2
              (foldStop_rel_success f R hrefl htrans hstep xs cuh cu2 h)
              (hP cu x2 cuh hq hf)
          · exact ih cuh cu2 (hQ cu x cuh hf hq) h x2 hx2
      | some e2 =>
          dsimp only at h
          injection h with h1 h2
          simp at h2

theorem CStep.isSome_mono {a b : CompilationUnit} (h : CStep a b) {k : String}
    (hk : (a.lookupSU k).isSome = true) : (b.lookupSU k).isSome = true := by
  rw [← mem_keys_iff] at hk ⊢
  exact h.keys k hk

theorem CStep_pc_eq {fn : String} {cu cu2 : CompilationUnit} {e : String × Json}
    {err : Option PyErr} (h : process_contract fn cu e = (cu2, err)) : CStep cu cu2 := by
  have h2 := CStep_pc fn cu e
  rw [h] at h2
  exact h2

theorem create_isSome_self (cu : CompilationUnit) (k : String) :
    ((create_source_unit cu k).lookupSU k).isSome = true := by
  rw [create_lookup, if_pos rfl]
  rfl

theorem CStep_pcp_success {r : String → String} {cu cu2 : CompilationUnit}
    {e : String × Json} (h : process_contracts_path r cu e = (cu2, none)) :
    CStep cu cu2 := by
  unfold process_contracts_path at h
  dsimp only at h
  rcases h1 : (e.2).items with e1 | cs
  · rw [h1] at h
    simp at h
  rw [h1] at h
  dsimp only at h
  refine CStep_trans (CStep_create cu (r e.1)) ?_
  exact foldStop_rel_success _ CStep CStep_refl (fun _ _ _ => CStep_trans)
    (fun _ _ _ hf => CStep_pc_eq hf) cs _ cu2 h

theorem pcp_success_all {r : String → String} {cu cu2 : CompilationUnit}
    {e : String × Json} (h : process_contracts_path r cu e = (cu2, none)) :
    ∃ cs, (e.2).items = Except.ok cs ∧
      ∀ rc, rc ∈ cs → populated cu2 (r e.1) (extract_name rc.1) := by
  unfold process_contracts_path at h
  dsimp only at h
  rcases h1 : (e.2).items with e1 | cs
  · rw [h1] at h
    simp at h
  rw [h1] at h
  dsimp only at h
  refine ⟨cs, rfl, ?_⟩
  refine foldStop_success_all _ CStep
    (fun cu3 rc => populated cu3 (r e.1) (extract_name rc.1))
    (fun cu3 => (cu3.lookupSU (r e.1)).isSome = true)
    CStep_refl (fun _ _ _ => CStep_trans)
    (fun _ _ _ hf => CStep_pc_eq hf)
    (fun _ _ _ hf hq => (CStep_pc_eq hf).isSome_mono hq)
    ?_ (fun a b x hR hp => hR.pop (r e.1) (extract_name x.1) hp)
    cs _ cu2 (create_isSome_self cu (r e.1)) h
  intro cu3 x cu4 hq hf
  have h2 : (process_contract (r e.1) cu3 x).2 = none := by rw [hf]
  have h3 := pc_success_populated (r e.1) cu3 x h2 hq
  have h4 : (process_contract (r e.1) cu3 x).1 = cu4 := by rw [hf]
  rw [h4] at h3
  exact h3


theorem pcs_eq_absent (r : String → String) (cu : CompilationUnit)
    (tkvs : List (String × Json)) (h : alookup tkvs "contracts" = none) :
    process_contracts_section r cu (Json.obj tkvs) = (cu, none) := by
  unfold process_contracts_section
  simp [Json.hasKeyPy, h]

theorem pcs_eq_present (r : String → String) (cu : CompilationUnit)
    (tkvs : List (String × Json)) (ckvs : List (String × Json))
    (h : alookup tkvs "contracts" = some (Json.obj ckvs)) :
    process_contracts_section r cu (Json.obj tkvs) =
      foldStop (process_contracts_path r) cu ckvs := by
  unfold process_contracts_section
  simp [Json.hasKeyPy, h, Json.item, Json.items]

theorem pcp_key_success {r : String → String} {cu cu2 : CompilationUnit}
    {e : String × Json} (h : process_contracts_path r cu e = (cu2, none)) :
    r e.1 ∈ cu2.keys := by
  unfold process_contracts_path at h
  dsimp only at h
  rcases h1 : (e.2).items with e1 | cs
  · rw [h1] at h
    simp at h
  rw [h1] at h
  dsimp only at h
  have hmem : r e.1 ∈ (create_source_unit cu (r e.1)).keys :=
    (create_keys_mem cu (r e.1) (r e.1)).mpr (Or.inr rfl)
  have hrel := foldStop_rel_success _ CStep CStep_refl (fun _ _ _ => CStep_trans)
    (fun _ _ _ hf => CStep_pc_eq hf) cs _ cu2 h
  exact hrel.keys (r e.1) hmem

theorem cf_keys_success {r : String → String} {cu cu2 : CompilationUnit}
    {ckvs : List (String × Json)}
    (h : foldStop (process_contracts_path r) cu ckvs = (cu2, none)) :
    ∀ pci, pci ∈ ckvs → r pci.1 ∈ cu2.keys := by
  refine foldStop_success_all _ CStep (fun cu3 pci => r pci.1 ∈ cu3.keys)
    (fun _ => True) CStep_refl (fun _ _ _ => CStep_trans)
    (fun _ _ _ hf => CStep_pcp_success hf)
    (fun _ _ _ _ _ => trivial)
    (fun _ _ _ _ hf => pcp_key_success hf)
    (fun a b x hR hp => hR.keys (r x.1) hp)
    ckvs cu cu2 trivial h

theorem cf_populated_success {r : String → String} {cu cu2 : CompilationUnit}
    {ckvs : List (String × Json)}
    (h : foldStop (process_contracts_path r) cu ckvs = (cu2, none)) :
    ∀ pci, pci ∈ ckvs → ∃ cs, (pci.2).items = Except.ok cs ∧
      ∀ rc, rc ∈ cs → populated cu2 (r pci.1) (extract_name rc.1) := by
  refine foldStop_success_all _ CStep
    (fun cu3 pci => ∃ cs, (pci.2).items = Except.ok cs ∧
      ∀ rc, rc ∈ cs → populated cu3 (r pci.1) (extract_name rc.1))
    (fun _ => True) CStep_refl (fun _ _ _ => CStep_trans)
    (fun _ _ _ hf => CStep_pcp_success hf)
    (fun _ _ _ _ _ => trivial)
    (fun _ _ _ _ hf => pcp_success_all hf)
    ?_ ckvs cu cu2 trivial h
  rintro a b x hR ⟨cs, hcs, hall⟩
  exact ⟨cs, hcs, fun rc hrc => hR.pop (r x.1) (extract_name rc.1) (hall rc hrc)⟩

theorem cf_CStep_success {r : String → String} {cu cu2 : CompilationUnit}
    {ckvs : List (String × Json)}
    (h : foldStop (process_contracts_path r) cu ckvs = (cu2, none)) :
    CStep cu cu2 :=
  foldStop_rel_success _ CStep CStep_refl (fun _ _ _ => CStep_trans)
    (fun _ _ _ hf => CStep_pcp_success hf) ckvs cu cu2 h


theorem pse_keys_mem (resolve : String → String) (target build_info : String)
    (skip : Bool) (cu : CompilationUnit) (entry : String × Json) (j : String) :
    j ∈ (process_source_entry resolve target build_info skip cu entry).1.keys ↔
      (j ∈ cu.keys ∨ j = effective_source_key resolve target skip entry.1) := by
  unfold process_source_entry
  dsimp only
  repeat' split
  all_goals
    first
      | exact create_keys_mem cu _ j
      | (rw [usu_keys]
         exact create_keys_mem cu _ j)

theorem pse_cv (resolve : String → String) (target build_info : String)
    (skip : Bool) (cu : CompilationUnit) (entry : String × Json) :
    (process_source_entry resolve target build_info skip cu entry).1.compiler_version =
      cu.compiler_version := by
  unfold process_source_entry
  dsimp only
  repeat' split
  all_goals exact create_cv cu _

theorem pse_uniq (resolve : String → String) (target build_info : String)
    (skip : Bool) (cu : CompilationUnit) (entry : String × Json) :
    (process_source_entry resolve target build_info skip cu entry).1.uniq_id =
      cu.uniq_id := by
  unfold process_source_entry
  dsimp only
  repeat' split
  all_goals exact create_uniq cu _

theorem pse_ftc (resolve : String → String) (target build_info : String)
    (skip : Bool) (cu : CompilationUnit) (entry : String × Json) :
    (process_source_entry resolve target build_info skip cu entry).1.filename_to_contracts =
      cu.filename_to_contracts := by
  unfold process_source_entry
  dsimp only
  repeat' split
  all_goals exact create_ftc cu _

theorem SStep_refl (cu : CompilationUnit) : SStep cu cu :=
  ⟨rfl, rfl, rfl, fun _ h => h, fun _ a2 h2 h3 => ⟨a2, h2, h3⟩⟩

theorem SStep_trans {a b c : CompilationUnit} (hab : SStep a b) (hbc : SStep b c) :
    SStep a c := by
  refine ⟨hbc.uniq.trans hab.uniq, hbc.cv.trans hab.cv, hbc.ftc.trans hab.ftc,
    fun j hj => hbc.keys j (hab.keys j hj), ?_⟩
  intro j a2 h2 h3
  obtain ⟨a3, h4, h5⟩ := hab.ast j a2 h2 h3
  exact hbc.ast j a3 h4 h5

theorem pse_success_facts {resolve : String → String} {target build_info : String}
    {skip : Bool} {cu cu2 : CompilationUnit} {entry : String × Json}
    (h : process_source_entry resolve target build_info skip cu entry = (cu2, none)) :
    SStep cu cu2 ∧
      ∃ a, astOf cu2 (effective_source_key resolve target skip entry.1) = some a ∧
        a.isNull = false := by
  unfold process_source_entry at h
  dsimp only at h
  rcases h1 : entry.2.dictGet "legacyAST" Json.null with e1 | fb
  · rw [h1] at h
    simp at h
  rw [h1] at h
  dsimp only at h
  rcases h2 : entry.2.dictGet "ast" fb with e2 | astVal
  · rw [h2] at h
    simp at h
  rw [h2] at h
  dsimp only at h
  by_cases h3 : astVal.isNull
  · rw [if_pos h3] at h
    simp at h
  rw [if_neg h3] at h
  injection h with hX hY
  subst hX
  have h3f : astVal.isNull = false := by
    rw [Bool.not_eq_true] at h3
    exact h3
  have hc : (create_source_unit cu
      (effective_source_key resolve target skip entry.1)).lookupSU
      (effective_source_key resolve target skip entry.1) =
      some ((cu.lookupSU (effective_source_key resolve target skip entry.1)).getD {}) := by
    rw [create_lookup, if_pos rfl]
  have hl := lookup_usu_self (fun su => { su with ast := astVal }) hc
  constructor
  · refine ⟨create_uniq cu _, create_cv cu _, create_ftc cu _, ?_, ?_⟩
    · intro j hj
      rw [usu_keys]
      exact (create_keys_mem cu _ j).mpr (Or.inl hj)
    · intro j a2 hja hna
      by_cases hj : j = effective_source_key resolve target skip entry.1
      · subst hj
        refine ⟨astVal, ?_, h3f⟩
        unfold astOf
        rw [hl]
        rfl
      · refine ⟨a2, ?_, hna⟩
        unfold astOf
        rw [usu_lookup, if_neg hj, create_lookup, if_neg hj]
        exact hja
  · refine ⟨astVal, ?_, h3f⟩
    unfold astOf
    rw [hl]
    rfl

theorem sf_SStep_success {resolve : String → String} {target build_info : String}
    {skip : Bool} {l : List (String × Json)} {cu cu2 : CompilationUnit}
    (h : foldStop (process_source_entry resolve target build_info skip) cu l =
      (cu2, none)) : SStep cu cu2 :=
  foldStop_rel_success _ SStep SStep_refl (fun _ _ _ => SStep_trans)
    (fun _ _ _ hf => (pse_success_facts hf).1) l cu cu2 h

theorem sf_ast_all {resolve : String → String} {target build_info : String}
    {skip : Bool} {l : List (String × Json)} {cu cu2 : CompilationUnit}
    (h : foldStop (process_source_entry resolve target build_info skip) cu l =
      (cu2, none)) :
    ∀ x, x ∈ l → ∃ a,
      astOf cu2 (effective_source_key resolve target skip x.1) = some a ∧
      a.isNull = false := by
  refine foldStop_success_all _ SStep
    (fun cu3 x => ∃ a, astOf cu3 (effective_source_key resolve target skip x.1) = some a ∧
      a.isNull = false)
    (fun _ => True) SStep_refl (fun _ _ _ => SStep_trans)
    (fun _ _ _ hf => (pse_success_facts hf).1)
    (fun _ _ _ _ _ => trivial)
    (fun _ x _ _ hf => (pse_success_facts hf).2)
    ?_ l cu cu2 trivial h
  rintro a b x hR ⟨a2, h2, h3⟩
  exact hR.ast _ a2 h2 h3

theorem sf_keys_sub {resolve : String → String} {target build_info : String}
    {skip : Bool} :
    ∀ (l : List (String × Json)) (cu cu2 : CompilationUnit),
      foldStop (process_source_entry resolve target build_info skip) cu l =
        (cu2, none) →
      ∀ j, j ∈ cu2.keys → j ∈ cu.keys ∨
        ∃ x, x ∈ l ∧ j = effective_source_key resolve target skip x.1 := by
  intro l
  induction l with
  | nil =>
      intro cu cu2 h j hj
      unfold foldStop at h
      injection h with h1 h2
      subst h1
      exact Or.inl hj
  | cons x xs ih =>
      intro cu cu2 h j hj
      unfold foldStop at h
      rcases hf : process_source_entry resolve target build_info skip cu x with ⟨cuh, errh⟩
      rw [hf] at h
      cases errh with
      | none =>
          dsimp only at h
          rcases ih cuh cu2 h j hj with hh | ⟨y, hy, hyk⟩
          · have hkm := pse_keys_mem resolve target build_info skip cu x j
            rw [hf] at hkm
            dsimp only at hkm
            rcases hkm.mp hh with hcu | hk
            · exact Or.inl hcu
            · exact Or.inr ⟨x, List.mem_cons_self x xs, hk⟩
          · exact Or.inr ⟨y, List.mem_cons_of_mem x hy, hyk⟩
      | some e2 =>
          dsimp only at h
          injection h with h1 h2
          simp at h2

theorem pss_eq_absent (resolve : String → String) (target build_info : String)
    (skip : Bool) (cu : CompilationUnit) (tkvs : List (String × Json))
    (h : alookup tkvs "sources" = none) :
    process_sources_section resolve target build_info skip cu (Json.obj tkvs) =
      (cu, none) := by
  unfold process_sources_section
  simp [Json.hasKeyPy, h]

theorem pss_eq_present (resolve : String → String) (target build_info : String)
    (skip : Bool) (cu : CompilationUnit) (tkvs skvs : List (String × Json))
    (h : alookup tkvs "sources" = some (Json.obj skvs)) :
    process_sources_section resolve target build_info skip cu (Json.obj tkvs) =
      foldStop (process_source_entry resolve target build_info skip) cu skvs := by
  unfold process_sources_section
  simp [Json.hasKeyPy, h, Json.item, Json.items]


theorem item_obj_of_alookup {kvs : List (String × Json)} {k : String} {v : Json}
    (h : alookup kvs k = some v) : (Json.obj kvs).item k = Except.ok v := by
  simp [Json.item, h]

theorem parse_eq (resolve : String → String) (target build_info uniq_id : String)
    (kvs : List (String × Json)) (tj v inp lang opt en : Json)
    (hout : alookup kvs "output" = some tj)
    (hv : alookup kvs "solcVersion" = some v)
    (hinp : alookup kvs "input" = some inp)
    (hlang : inp.item "language" = Except.ok lang)
    (hopt : (inp.item "settings").bind (fun st => st.item "optimizer") = Except.ok opt)
    (hen : opt.item "enabled" = Except.ok en) :
    hardhat_like_parsing_doc resolve target build_info uniq_id (Json.obj kvs) =
      match process_sources_section resolve target build_info (skip_filename v)
        (CompilationUnit.mk uniq_id
          (some (CompilerVersion.mk
            (if lang.eqStr "Solidity" then "solc" else "vyper") v en)) [] []) tj with
      | (cu2, some e) => (cu2, some e)
      | (cu2, none) => process_contracts_section resolve cu2 tj := by
  unfold hardhat_like_parsing_doc
  simp only [item_obj_of_alookup hout, item_obj_of_alookup hv, item_obj_of_alookup hinp,
    hlang, hopt, hen]


theorem eqStr_iff (v : Json) (s : String) : Json.eqStr v s = true ↔ v = Json.str s := by
  cases v <;> simp [Json.eqStr]

theorem foldStop_rel_all {α : Type}
    (f : CompilationUnit → α → CompilationUnit × Option PyErr)
    (R : CompilationUnit → CompilationUnit → Prop)
    (hrefl : ∀ cu, R cu cu)
    (htrans : ∀ a b c, R a b → R b c → R a c)
    (hstep : ∀ cu x, R cu (f cu x).1) :
    ∀ l cu, R cu (foldStop f cu l).1 := by
  intro l
  induction l with
  | nil =>
      intro cu
      exact hrefl cu
  | cons x xs ih =>
      intro cu
      unfold foldStop
      rcases hf : f cu x with ⟨cuh, errh⟩
      have hstep2 : R cu cuh := by
        have h2 := hstep cu x
        rw [hf] at h2
        exact h2
      cases errh with
      | none =>
          dsimp only
          exact htrans _ _ _ hstep2 (ih cuh)
      | some e2 =>
          dsimp only
          exact hstep2

theorem pc_cv (fn : String) (cu : CompilationUnit) (e : String × Json) :
    (process_contract fn cu e).1.compiler_version = cu.compiler_version :=
  (CStep_pc fn cu e).cv

theorem pcp_cv (r : String → String) (cu : CompilationUnit) (e : String × Json) :
    (process_contracts_path r cu e).1.compiler_version = cu.compiler_version := by
  unfold process_contracts_path
  dsimp only
  rcases h1 : (e.2).items with e1 | cs
  · exact create_cv cu _
  · dsimp only
    have h2 := foldStop_rel_all (process_contract (r e.1))
      (fun a b => b.compiler_version = a.compiler_version)
      (fun _ => rfl) (fun _ _ _ hab hbc => hbc.trans hab)
      (fun cu2 x => pc_cv (r e.1) cu2 x) cs (create_source_unit cu (r e.1))
    exact h2.trans (create_cv cu _)

theorem pss_cv (resolve : String → String) (target build_info : String) (skip : Bool)
    (cu : CompilationUnit) (tj : Json) :
    (process_sources_section resolve target build_info skip cu tj).1.compiler_version =
      cu.compiler_version := by
  unfold process_sources_section
  repeat' split
  all_goals
    first
      | rfl
      | exact foldStop_rel_all (process_source_entry resolve target build_info skip)
          (fun a b => b.compiler_version = a.compiler_version)
          (fun _ => rfl) (fun _ _ _ hab hbc => hbc.trans hab)
          (fun cu2 x => pse_cv resolve target build_info skip cu2 x) _ cu

theorem pcs_cv (r : String → String) (cu : CompilationUnit) (tj : Json) :
    (process_contracts_section r cu tj).1.compiler_version = cu.compiler_version := by
  unfold process_contracts_section
  repeat' split
  all_goals
    first
      | rfl
      | exact foldStop_rel_all (process_contracts_path r)
          (fun a b => b.compiler_version = a.compiler_version)
          (fun _ => rfl) (fun _ _ _ hab hbc => hbc.trans hab)
          (fun cu2 x => pcp_cv r cu2 x) _ cu

theorem pcs_eq_badval (r : String → String) (cu : CompilationUnit)
    (tkvs : List (String × Json)) (c : Json) (e : PyErr)
    (h2 : alookup tkvs "contracts" = some c) (h3 : c.items = Except.error e) :
    process_contracts_section r cu (Json.obj tkvs) = (cu, some e) := by
  unfold process_contracts_section
  simp [Json.hasKeyPy, h2, Json.item, h3]

theorem pcs_CStep_success {r : String → String} {cu cu2 : CompilationUnit}
    {tkvs : List (String × Json)}
    (h : process_contracts_section r cu (Json.obj tkvs) = (cu2, none)) :
    CStep cu cu2 := by
  rcases hck : alookup tkvs "contracts" with _ | c
  · rw [pcs_eq_absent r cu tkvs hck] at h
    injection h with h1 h2
    subst h1
    exact CStep_refl cu
  · cases c with
    | obj ckvs =>
        rw [pcs_eq_present r cu tkvs ckvs hck] at h
        exact cf_CStep_success h
    | null =>
        rw [pcs_eq_badval r cu tkvs _ _ hck rfl] at h
        simp at h
    | bool b =>
        rw [pcs_eq_badval r cu tkvs _ _ hck rfl] at h
        simp at h
    | str s =>
        rw [pcs_eq_badval r cu tkvs _ _ hck rfl] at h
        simp at h
    | num n =>
        rw [pcs_eq_badval r cu tkvs _ _ hck rfl] at h
        simp at h
    | arr xs =>
        rw [pcs_eq_badval r cu tkvs _ _ hck rfl] at h
        simp at h


theorem item_obj_none {kvs : List (String × Json)} {k : String}
    (h : alookup kvs k = none) :
    (Json.obj kvs).item k = Except.error (PyErr.keyError k) := by
  simp [Json.item, h]

/-- C2 counterexample: a build-info document that lacks the "output"
descriptor raises the Python KeyError "output", not CompilationInvalid,
refuting the claim that a missing top-level field raises the
compilation-invalid error. -/
theorem C2_counterexample :
    (hardhat_like_parsing_doc id "t" "b" "u"
        (Json.obj [("solcVersion", Json.str "0.8.0")])).2 =
      some (PyErr.keyError "output") ∧
    Option.map PyErr.isInvalidCompilation
      (hardhat_like_parsing_doc id "t" "b" "u"
        (Json.obj [("solcVersion", Json.str "0.8.0")])).2 = some false :=
  ⟨rfl, rfl⟩

/-- C2 (amended): a build-info document whose top level lacks the
"output" descriptor, the "solcVersion" field, or the "input" descriptor
raises the Python KeyError naming the missing key — not
CompilationInvalid — leaving the CompilationUnit without compiler
metadata. -/
theorem C2_missing_top_level (resolve : String → String)
    (target build_info uniq_id : String) (kvs : List (String × Json)) :
    (alookup kvs "output" = none →
      hardhat_like_parsing_doc resolve target build_info uniq_id (Json.obj kvs) =
        (CompilationUnit.mk uniq_id none [] [], some (PyErr.keyError "output"))) ∧
    (∀ out, alookup kvs "output" = some out → alookup kvs "solcVersion" = none →
      hardhat_like_parsing_doc resolve target build_info uniq_id (Json.obj kvs) =
        (CompilationUnit.mk uniq_id none [] [], some (PyErr.keyError "solcVersion"))) ∧
    (∀ out v, alookup kvs "output" = some out → alookup kvs "solcVersion" = some v →
      alookup kvs "input" = none →
      hardhat_like_parsing_doc resolve target build_info uniq_id (Json.obj kvs) =
        (CompilationUnit.mk uniq_id none [] [], some (PyErr.keyError "input"))) := by
  refine ⟨?_, ?_, ?_⟩
  · intro h
    unfold hardhat_like_parsing_doc
    rw [item_obj_none h]
  · intro out hout h
    unfold hardhat_like_parsing_doc
    rw [item_obj_of_alookup hout, item_obj_none h]
  · intro out v hout hv h
    unfold hardhat_like_parsing_doc
    rw [item_obj_of_alookup hout, item_obj_of_alookup hv, item_obj_none h]

/-- Witness for C2: concrete documents missing "output", "solcVersion"
and "input" respectively, each raising the matching KeyError. -/
theorem C2_missing_top_level_witness :
    alookup [("solcVersion", Json.str "0.8.0")] "output" = none ∧
    hardhat_like_parsing_doc id "t" "b" "u"
        (Json.obj [("solcVersion", Json.str "0.8.0")]) =
      (CompilationUnit.mk "u" none [] [], some (PyErr.keyError "output")) ∧
    hardhat_like_parsing_doc id "t" "b" "u" (Json.obj [("output", Json.obj [])]) =
      (CompilationUnit.mk "u" none [] [], some (PyErr.keyError "solcVersion")) ∧
    hardhat_like_parsing_doc id "t" "b" "u"
        (Json.obj [("output", Json.obj []), ("solcVersion", Json.str "0.8.0")]) =
      (CompilationUnit.mk "u" none [] [], some (PyErr.keyError "input")) :=
  ⟨rfl,
   (C2_missing_top_level id "t" "b" "u" [("solcVersion", Json.str "0.8.0")]).1 rfl,
   (C2_missing_top_level id "t" "b" "u" [("output", Json.obj [])]).2.1
     (Json.obj []) rfl rfl,
   (C2_missing_top_level id "t" "b" "u"
     [("output", Json.obj []), ("solcVersion", Json.str "0.8.0")]).2.2
     (Json.obj []) (Json.str "0.8.0") rfl rfl rfl⟩

/-- C7: a build-info document with the required top-level fields whose
output omits the "sources" section, the "contracts" section, or both is
processed without error: a missing section is a no-op for its phase,
and with both absent a CompilationUnit carrying exactly the compiler
metadata is produced. -/
theorem C7_absent_sections (resolve : String → String)
    (target build_info uniq_id : String) (kvs tkvs : List (String × Json))
    (v inp lang opt en : Json) (cu : CompilationUnit)
    (hout : alookup kvs "output" = some (Json.obj tkvs))
    (hv : alookup kvs "solcVersion" = some v)
    (hinp : alookup kvs "input" = some inp)
    (hlang : inp.item "language" = Except.ok lang)
    (hopt : (inp.item "settings").bind (fun st => st.item "optimizer") = Except.ok opt)
    (hen : opt.item "enabled" = Except.ok en)
    (hnos : alookup tkvs "sources" = none)
    (hnoc : alookup tkvs "contracts" = none) :
    hardhat_like_parsing_doc resolve target build_info uniq_id (Json.obj kvs) =
      (CompilationUnit.mk uniq_id
        (some (CompilerVersion.mk
          (if lang.eqStr "Solidity" then "solc" else "vyper") v en)) [] [], none) ∧
    process_sources_section resolve target build_info (skip_filename v) cu
      (Json.obj tkvs) = (cu, none) ∧
    process_contracts_section resolve cu (Json.obj tkvs) = (cu, none) := by
  refine ⟨?_, pss_eq_absent resolve target build_info (skip_filename v) cu tkvs hnos,
    pcs_eq_absent resolve cu tkvs hnoc⟩
  rw [parse_eq resolve target build_info uniq_id kvs _ v inp lang opt en
    hout hv hinp hlang hopt hen]
  rw [pss_eq_absent resolve target build_info (skip_filename v)
    (CompilationUnit.mk uniq_id
      (some (CompilerVersion.mk
        (if lang.eqStr "Solidity" then "solc" else "vyper") v en)) [] []) tkvs hnos]
  dsimp only
  rw [pcs_eq_absent resolve
    (CompilationUnit.mk uniq_id
      (some (CompilerVersion.mk
        (if lang.eqStr "Solidity" then "solc" else "vyper") v en)) [] []) tkvs hnoc]

/-- Witness for C7: a concrete document with solcVersion 0.8.4,
Solidity input, and an empty output object produces a CompilationUnit
with the compiler metadata and no sources or contracts. -/
theorem C7_absent_sections_witness :
    alookup [("solcVersion", Json.str "0.8.4"),
      ("input", Json.obj [("language", Json.str "Solidity"),
        ("settings", Json.obj [("optimizer", Json.obj [("enabled", Json.bool true)])])]),
      ("output", Json.obj [])] "output" = some (Json.obj []) ∧
    hardhat_like_parsing_doc id "t" "b" "u"
      (Json.obj [("solcVersion", Json.str "0.8.4"),
        ("input", Json.obj [("language", Json.str "Solidity"),
          ("settings", Json.obj [("optimizer", Json.obj [("enabled", Json.bool true)])])]),
        ("output", Json.obj [])]) =
      (CompilationUnit.mk "u"
        (some (CompilerVersion.mk "solc" (Json.str "0.8.4") (Json.bool true))) [] [],
       none) := by
  constructor
  · rfl
  · have h := (C7_absent_sections id "t" "b" "u"
      [("solcVersion", Json.str "0.8.4"),
        ("input", Json.obj [("language", Json.str "Solidity"),
          ("settings", Json.obj [("optimizer", Json.obj [("enabled", Json.bool true)])])]),
        ("output", Json.obj [])] []
      (Json.str "0.8.4")
      (Json.obj [("language", Json.str "Solidity"),
        ("settings", Json.obj [("optimizer", Json.obj [("enabled", Json.bool true)])])])
      (Json.str "Solidity") (Json.obj [("enabled", Json.bool true)]) (Json.bool true)
      (CompilationUnit.mk "u" none [] [])
      rfl rfl rfl rfl rfl rfl rfl rfl).1
    simpa using h


/-- C8: the derived compiler family is "solc" exactly when the input
language tag equals the string "Solidity" and the fallback "vyper"
otherwise, and the version and optimizer values are attached verbatim
(and exactly once, the metadata being unchanged by both section phases)
as the CompilationUnit's CompilerVersion — independent of whether
section processing subsequently fails. -/
theorem C8_compiler_metadata (resolve : String → String)
    (target build_info uniq_id : String) (kvs : List (String × Json))
    (tj v inp lang opt en : Json)
    (hout : alookup kvs "output" = some tj)
    (hv : alookup kvs "solcVersion" = some v)
    (hinp : alookup kvs "input" = some inp)
    (hlang : inp.item "language" = Except.ok lang)
    (hopt : (inp.item "settings").bind (fun st => st.item "optimizer") = Except.ok opt)
    (hen : opt.item "enabled" = Except.ok en) :
    (hardhat_like_parsing_doc resolve target build_info uniq_id
        (Json.obj kvs)).1.compiler_version =
      some (CompilerVersion.mk
        (if lang.eqStr "Solidity" then "solc" else "vyper") v en) ∧
    ((if lang.eqStr "Solidity" then "solc" else "vyper") = "solc" ↔
      lang = Json.str "Solidity") := by
  constructor
  · rw [parse_eq resolve target build_info uniq_id kvs tj v inp lang opt en
      hout hv hinp hlang hopt hen]
    rcases hps : process_sources_section resolve target build_info (skip_filename v)
      (CompilationUnit.mk uniq_id
        (some (CompilerVersion.mk
          (if lang.eqStr "Solidity" then "solc" else "vyper") v en)) [] []) tj
      with ⟨cu2, e2⟩
    have hcv1 : cu2.compiler_version =
        some (CompilerVersion.mk
          (if lang.eqStr "Solidity" then "solc" else "vyper") v en) := by
      have h2 := pss_cv resolve target build_info (skip_filename v)
        (CompilationUnit.mk uniq_id
          (some (CompilerVersion.mk
            (if lang.eqStr "Solidity" then "solc" else "vyper") v en)) [] []) tj
      rw [hps] at h2
      exact h2
    cases e2 with
    | some e3 =>
        dsimp only
        exact hcv1
    | none =>
        dsimp only
        exact (pcs_cv resolve cu2 tj).trans hcv1
  · by_cases hs : Json.eqStr lang "Solidity"
    · rw [if_pos hs]
      rw [eqStr_iff] at hs
      simp [hs]
    · rw [if_neg hs]
      constructor
      · intro hcon
        exact absurd hcon (by decide)
      · intro hl
        exact absurd ((eqStr_iff lang "Solidity").mpr hl) hs

/-- Witness for C8: concrete Solidity and non-Solidity documents
(the latter with a malformed contracts section, still carrying the
metadata). -/
theorem C8_compiler_metadata_witness :
    alookup [("solcVersion", Json.str "0.7.0"),
      ("input", Json.obj [("language", Json.str "Vyper"),
        ("settings", Json.obj [("optimizer", Json.obj [("enabled", Json.bool false)])])]),
      ("output", Json.obj [("contracts", Json.num 3)])] "output" =
        some (Json.obj [("contracts", Json.num 3)]) ∧
    (hardhat_like_parsing_doc id "t" "b" "u"
      (Json.obj [("solcVersion", Json.str "0.7.0"),
        ("input", Json.obj [("language", Json.str "Vyper"),
          ("settings", Json.obj [("optimizer", Json.obj [("enabled", Json.bool false)])])]),
        ("output", Json.obj [("contracts", Json.num 3)])])).1.compiler_version =
      some (CompilerVersion.mk "vyper" (Json.str "0.7.0") (Json.bool false)) := by
  constructor
  · rfl
  · have h := (C8_compiler_metadata id "t" "b" "u"
      [("solcVersion", Json.str "0.7.0"),
        ("input", Json.obj [("language", Json.str "Vyper"),
          ("settings", Json.obj [("optimizer", Json.obj [("enabled", Json.bool false)])])]),
        ("output", Json.obj [("contracts", Json.num 3)])]
      (Json.obj [("contracts", Json.num 3)]) (Json.str "0.7.0")
      (Json.obj [("language", Json.str "Vyper"),
        ("settings", Json.obj [("optimizer", Json.obj [("enabled", Json.bool false)])])])
      (Json.str "Vyper") (Json.obj [("enabled", Json.bool false)]) (Json.bool false)
      rfl rfl rfl rfl rfl rfl).1
    simpa using h


/-- C1 counterexample: a document whose derived family is the fallback
("vyper", language tag "Vyper") but whose version string is "0.4.0"
still triggers the quirk — skip_filename is true and the "sources"
entry "ignored.sol" is keyed under the resolved build target
"R/T.sol", not under its own resolved path "R/ignored.sol" — refuting
the claim that the override fires only for the legacy family. -/
theorem C1_counterexample :
    skip_filename (Json.str "0.4.0") = true ∧
    (hardhat_like_parsing_doc (fun s => "R/" ++ s) "T.sol" "b" "u"
        (Json.obj [("solcVersion", Json.str "0.4.0"),
          ("input", Json.obj [("language", Json.str "Vyper"),
            ("settings", Json.obj [("optimizer", Json.obj [("enabled", Json.bool false)])])]),
          ("output", Json.obj [("sources",
            Json.obj [("ignored.sol", Json.obj [("ast", Json.num 1)])])])])).1.compiler_version =
      some (CompilerVersion.mk "vyper" (Json.str "0.4.0") (Json.bool false)) ∧
    (hardhat_like_parsing_doc (fun s => "R/" ++ s) "T.sol" "b" "u"
        (Json.obj [("solcVersion", Json.str "0.4.0"),
          ("input", Json.obj [("language", Json.str "Vyper"),
            ("settings", Json.obj [("optimizer", Json.obj [("enabled", Json.bool false)])])]),
          ("output", Json.obj [("sources",
            Json.obj [("ignored.sol", Json.obj [("ast", Json.num 1)])])])])).2 = none ∧
    (hardhat_like_parsing_doc (fun s => "R/" ++ s) "T.sol" "b" "u"
        (Json.obj [("solcVersion", Json.str "0.4.0"),
          ("input", Json.obj [("language", Json.str "Vyper"),
            ("settings", Json.obj [("optimizer", Json.obj [("enabled", Json.bool false)])])]),
          ("output", Json.obj [("sources",
            Json.obj [("ignored.sol", Json.obj [("ast", Json.num 1)])])])])).1.keys =
      ["R/T.sol"] ∧
    List.elem "R/ignored.sol"
      (hardhat_like_parsing_doc (fun s => "R/" ++ s) "T.sol" "b" "u"
        (Json.obj [("solcVersion", Json.str "0.4.0"),
          ("input", Json.obj [("language", Json.str "Vyper"),
            ("settings", Json.obj [("optimizer", Json.obj [("enabled", Json.bool false)])])]),
          ("output", Json.obj [("sources",
            Json.obj [("ignored.sol", Json.obj [("ast", Json.num 1)])])])])).1.keys =
      false :=
  ⟨rfl, rfl, rfl, rfl, rfl⟩

/-- C1 (amended): the entry-point-override quirk depends only on the
version string — skip_filename is true exactly for the ten strings
"0.4.0" … "0.4.9", with the compiler family playing no part; when the
version is outside that set each "sources" entry is keyed under its own
resolved path, and when it is inside the set the entry is keyed under
the resolved build target instead. -/
theorem C1_version_only_quirk :
    (∀ v : Json, skip_filename v = true ↔
      v ∈ (List.range 10).map (fun x => Json.str ("0.4." ++ toString x))) ∧
    (∀ (resolve : String → String) (target build_info : String) (v : Json)
      (cu : CompilationUnit) (entry : String × Json) (j : String),
      skip_filename v = false →
      (j ∈ (process_source_entry resolve target build_info (skip_filename v)
          cu entry).1.keys ↔ (j ∈ cu.keys ∨ j = resolve entry.1))) ∧
    (∀ (resolve : String → String) (target build_info : String) (v : Json)
      (cu : CompilationUnit) (entry : String × Json) (j : String),
      skip_filename v = true →
      (j ∈ (process_source_entry resolve target build_info (skip_filename v)
          cu entry).1.keys ↔ (j ∈ cu.keys ∨ j = resolve target))) := by
  refine ⟨?_, ?_, ?_⟩
  · intro v
    simp only [skip_filename, List.any_eq_true, List.mem_map, eqStr_iff]
    constructor
    · rintro ⟨s, ⟨x, hx, rfl⟩, hv⟩
      exact ⟨x, hx, hv.symm⟩
    · rintro ⟨x, hx, hv⟩
      exact ⟨"0.4." ++ toString x, ⟨x, hx, rfl⟩, hv.symm⟩
  · intro resolve target build_info v cu entry j hskip
    rw [hskip]
    have h2 := pse_keys_mem resolve target build_info false cu entry j
    simpa [effective_source_key] using h2
  · intro resolve target build_info v cu entry j hskip
    rw [hskip]
    have h2 := pse_keys_mem resolve target build_info true cu entry j
    simpa [effective_source_key] using h2

/-- Witness for C1: version "0.8.0" is outside the quirk set and the
entry keeps its own resolved path; version "0.4.3" is inside it. -/
theorem C1_version_only_quirk_witness :
    skip_filename (Json.str "0.8.0") = false ∧
    skip_filename (Json.str "0.4.3") = true ∧
    ("R/a.sol" ∈ (process_source_entry (fun s => "R/" ++ s) "T.sol" "b"
        (skip_filename (Json.str "0.8.0")) (CompilationUnit.mk "u" none [] [])
        ("a.sol", Json.obj [("ast", Json.num 1)])).1.keys ↔
      ("R/a.sol" ∈ (CompilationUnit.mk "u" none [] []).keys ∨
        "R/a.sol" = "R/a.sol")) ∧
    ("R/T.sol" ∈ (process_source_entry (fun s => "R/" ++ s) "T.sol" "b"
        (skip_filename (Json.str "0.4.3")) (CompilationUnit.mk "u" none [] [])
        ("a.sol", Json.obj [("ast", Json.num 1)])).1.keys ↔
      ("R/T.sol" ∈ (CompilationUnit.mk "u" none [] []).keys ∨
        "R/T.sol" = "R/T.sol")) :=
  ⟨rfl, rfl,
   C1_version_only_quirk.2.1 (fun s => "R/" ++ s) "T.sol" "b" (Json.str "0.8.0")
     (CompilationUnit.mk "u" none [] []) ("a.sol", Json.obj [("ast", Json.num 1)])
     "R/a.sol" rfl,
   C1_version_only_quirk.2.2 (fun s => "R/" ++ s) "T.sol" "b" (Json.str "0.4.3")
     (CompilationUnit.mk "u" none [] []) ("a.sol", Json.obj [("ast", Json.num 1)])
     "R/T.sol" rfl⟩


/-- C3 counterexample: a contract entry with no "abi" field raises the
Python KeyError "abi" — not CompilationInvalid, and naming nothing —
and the bare name "A" extracted from the raw identifier has already
been registered in the SourceUnit's contract-name set and in the
reverse index when the error is raised, refuting the claim that no
partial contract record is admitted. -/
theorem C3_counterexample :
    (hardhat_like_parsing_doc (fun s => "R/" ++ s) "T.sol" "b" "u"
        (Json.obj [("solcVersion", Json.str "0.8.0"),
          ("input", Json.obj [("language", Json.str "Solidity"),
            ("settings", Json.obj [("optimizer", Json.obj [("enabled", Json.bool true)])])]),
          ("output", Json.obj [("contracts",
            Json.obj [("A.sol", Json.obj [("X:A", Json.obj [])])])])])).2 =
      some (PyErr.keyError "abi") ∧
    Option.map PyErr.isInvalidCompilation
      (hardhat_like_parsing_doc (fun s => "R/" ++ s) "T.sol" "b" "u"
        (Json.obj [("solcVersion", Json.str "0.8.0"),
          ("input", Json.obj [("language", Json.str "Solidity"),
            ("settings", Json.obj [("optimizer", Json.obj [("enabled", Json.bool true)])])]),
          ("output", Json.obj [("contracts",
            Json.obj [("A.sol", Json.obj [("X:A", Json.obj [])])])])])).2 = some false ∧
    Option.map SourceUnit.contract_names
      ((hardhat_like_parsing_doc (fun s => "R/" ++ s) "T.sol" "b" "u"
        (Json.obj [("solcVersion", Json.str "0.8.0"),
          ("input", Json.obj [("language", Json.str "Solidity"),
            ("settings", Json.obj [("optimizer", Json.obj [("enabled", Json.bool true)])])]),
          ("output", Json.obj [("contracts",
            Json.obj [("A.sol", Json.obj [("X:A", Json.obj [])])])])])).1.lookupSU
        "R/A.sol") = some ["A"] ∧
    ftcNames
      (hardhat_like_parsing_doc (fun s => "R/" ++ s) "T.sol" "b" "u"
        (Json.obj [("solcVersion", Json.str "0.8.0"),
          ("input", Json.obj [("language", Json.str "Solidity"),
            ("settings", Json.obj [("optimizer", Json.obj [("enabled", Json.bool true)])])]),
          ("output", Json.obj [("contracts",
            Json.obj [("A.sol", Json.obj [("X:A", Json.obj [])])])])])).1
      "R/A.sol" = ["A"] :=
  ⟨rfl, rfl, rfl, rfl⟩

/-- C3 (amended): when any required sub-field of a contract entry is
missing, processing the entry raises the underlying Python error
(KeyError, TypeError or AttributeError) — never CompilationInvalid, and
naming no contract, file or document — and the contract's bare name has
already been registered in both the SourceUnit's contract-name set and
the reverse index when the error is raised: a partial record is
admitted. -/
theorem C3_missing_subfield (fn : String) (cu : CompilationUnit)
    (e : String × Json) (err : PyErr)
    (hfn : (cu.lookupSU fn).isSome = true)
    (herr : (process_contract fn cu e).2 = some err) :
    err.isInvalidCompilation = false ∧
    registered (process_contract fn cu e).1 fn (extract_name e.1) := by
  constructor
  · cases err with
    | invalidCompilation m => exact absurd rfl (pc_error_kind fn cu e herr m)
    | keyError k => rfl
    | typeError => rfl
    | attributeError => rfl
  · exact pc_registered_any fn cu e hfn

/-- Witness for C3: the entry ("X:A", {}) with no "abi" field processed
into a unit holding the source file "R/A.sol". -/
theorem C3_missing_subfield_witness :
    ((create_source_unit (CompilationUnit.mk "u" none [] [])
        "R/A.sol").lookupSU "R/A.sol").isSome = true ∧
    (process_contract "R/A.sol"
        (create_source_unit (CompilationUnit.mk "u" none [] []) "R/A.sol")
        ("X:A", Json.obj [])).2 = some (PyErr.keyError "abi") ∧
    (PyErr.keyError "abi").isInvalidCompilation = false ∧
    registered
      (process_contract "R/A.sol"
        (create_source_unit (CompilationUnit.mk "u" none [] []) "R/A.sol")
        ("X:A", Json.obj [])).1
      "R/A.sol" (extract_name "X:A") :=
  ⟨rfl, rfl,
   (C3_missing_subfield "R/A.sol"
     (create_source_unit (CompilationUnit.mk "u" none [] []) "R/A.sol")
     ("X:A", Json.obj []) (PyErr.keyError "abi") rfl rfl).1,
   (C3_missing_subfield "R/A.sol"
     (create_source_unit (CompilationUnit.mk "u" none [] []) "R/A.sol")
     ("X:A", Json.obj []) (PyErr.keyError "abi") rfl rfl).2⟩


/-- C6: for a contract entry whose reported source-map fields are the
strings s1 (bytecode) and s2 (deployedBytecode), the stored source maps
are exactly the ordered sequences obtained by splitting those strings
on ";" with empty fields preserved; in particular splitting
"1:2:0;3:4:0;" yields exactly ["1:2:0", "3:4:0", ""]. -/
theorem C6_srcmap_split :
    (∀ (fn : String) (cu : CompilationUnit) (raw : String) (info : Json)
      (su : SourceUnit) (abi bc iobj db robj ud dd : Json) (s1 s2 : String),
      cu.lookupSU fn = some su →
      info.item "abi" = Except.ok abi →
      (info.item "evm").bind (fun evm => evm.item "bytecode") = Except.ok bc →
      bc.item "object" = Except.ok iobj →
      (info.item "evm").bind (fun evm => evm.item "deployedBytecode") = Except.ok db →
      db.item "object" = Except.ok robj →
      bc.item "sourceMap" = Except.ok (Json.str s1) →
      db.item "sourceMap" = Except.ok (Json.str s2) →
      info.dictGet "userdoc" (Json.obj []) = Except.ok ud →
      info.dictGet "devdoc" (Json.obj []) = Except.ok dd →
      ∃ su2, (process_contract fn cu (raw, info)).1.lookupSU fn = some su2 ∧
        alookup su2.srcmaps_init (extract_name raw) = some (pySplit s1 ';') ∧
        alookup su2.srcmaps_runtime (extract_name raw) = some (pySplit s2 ';')) ∧
    pySplit "1:2:0;3:4:0;" ';' = ["1:2:0", "3:4:0", ""] := by
  constructor
  · intro fn cu raw info su abi bc iobj db robj ud dd s1 s2
      hsu habi hbc hio hdb hro hs1 hs2 hud hdd
    obtain ⟨-, su2, hl, -, -, -, -, hsi, hsr, -, -, -⟩ :=
      pc_ok_state fn cu raw info hsu habi hbc hio hdb hro hs1 hs2 hud hdd
    exact ⟨su2, hl, hsi, hsr⟩
  · rfl

/-- Witness for C6: a concrete contract entry with init source map
"1:2:0;3:4:0;" and runtime source map "5:6:0" stores the split
sequences, the trailing empty entry preserved. -/
theorem C6_srcmap_split_witness :
    (create_source_unit (CompilationUnit.mk "u" none [] [])
        "A.sol").lookupSU "A.sol" = some {} ∧
    ∃ su2, (process_contract "A.sol"
        (create_source_unit (CompilationUnit.mk "u" none [] []) "A.sol")
        ("A", Json.obj [("abi", Json.arr []),
          ("evm", Json.obj
            [("bytecode", Json.obj [("object", Json.str "600160"),
              ("sourceMap", Json.str "1:2:0;3:4:0;")]),
             ("deployedBytecode", Json.obj [("object", Json.str "aabb"),
              ("sourceMap", Json.str "5:6:0")])])])).1.lookupSU "A.sol" = some su2 ∧
      alookup su2.srcmaps_init (extract_name "A") =
        some (pySplit "1:2:0;3:4:0;" ';') ∧
      alookup su2.srcmaps_runtime (extract_name "A") =
        some (pySplit "5:6:0" ';') :=
  ⟨rfl,
   C6_srcmap_split.1 "A.sol"
     (create_source_unit (CompilationUnit.mk "u" none [] []) "A.sol") "A"
     (Json.obj [("abi", Json.arr []),
       ("evm", Json.obj
         [("bytecode", Json.obj [("object", Json.str "600160"),
           ("sourceMap", Json.str "1:2:0;3:4:0;")]),
          ("deployedBytecode", Json.obj [("object", Json.str "aabb"),
           ("sourceMap", Json.str "5:6:0")])])])
     {} (Json.arr [])
     (Json.obj [("object", Json.str "600160"), ("sourceMap", Json.str "1:2:0;3:4:0;")])
     (Json.str "600160")
     (Json.obj [("object", Json.str "aabb"), ("sourceMap", Json.str "5:6:0")])
     (Json.str "aabb") (Json.obj []) (Json.obj []) "1:2:0;3:4:0;" "5:6:0"
     rfl rfl rfl rfl rfl rfl rfl rfl rfl rfl⟩


/-- C5: every "contracts" entry is keyed under the resolution of its
own path — for any document (quirk active or not) that parses
successfully, each contracts path p contributes the canonical key
resolve p, never the resolved build target substitution. -/
theorem C5_contracts_own_path (resolve : String → String)
    (target build_info uniq_id : String) (kvs tkvs ckvs : List (String × Json))
    (v inp lang opt en : Json) (cu2 : CompilationUnit)
    (hout : alookup kvs "output" = some (Json.obj tkvs))
    (hv : alookup kvs "solcVersion" = some v)
    (hinp : alookup kvs "input" = some inp)
    (hlang : inp.item "language" = Except.ok lang)
    (hopt : (inp.item "settings").bind (fun st => st.item "optimizer") = Except.ok opt)
    (hen : opt.item "enabled" = Except.ok en)
    (hck : alookup tkvs "contracts" = some (Json.obj ckvs))
    (hrun : hardhat_like_parsing_doc resolve target build_info uniq_id
      (Json.obj kvs) = (cu2, none)) :
    ∀ pci, pci ∈ ckvs → resolve pci.1 ∈ cu2.keys := by
  rw [parse_eq resolve target build_info uniq_id kvs (Json.obj tkvs) v inp lang opt en
    hout hv hinp hlang hopt hen] at hrun
  rcases hps : process_sources_section resolve target build_info (skip_filename v)
    (CompilationUnit.mk uniq_id
      (some (CompilerVersion.mk
        (if lang.eqStr "Solidity" then "solc" else "vyper") v en)) [] [])
    (Json.obj tkvs) with ⟨cu1s, e2⟩
  rw [hps] at hrun
  cases e2 with
  | some e3 =>
      dsimp only at hrun
      injection hrun with h1 h2
      simp at h2
  | none =>
      dsimp only at hrun
      rw [pcs_eq_present resolve cu1s tkvs ckvs hck] at hrun
      exact cf_keys_success hrun

/-- Witness for C5: with quirk version "0.4.0" active, the contracts
path "A.sol" is still keyed under its own resolved path "R/A.sol". -/
theorem C5_contracts_own_path_witness :
    hardhat_like_parsing_doc (fun s => "R/" ++ s) "T.sol" "b" "u"
      (Json.obj [("solcVersion", Json.str "0.4.0"),
        ("input", Json.obj [("language", Json.str "Solidity"),
          ("settings", Json.obj [("optimizer", Json.obj [("enabled", Json.bool true)])])]),
        ("output", Json.obj [("contracts",
          Json.obj [("A.sol", Json.obj [])])])]) =
      ((hardhat_like_parsing_doc (fun s => "R/" ++ s) "T.sol" "b" "u"
        (Json.obj [("solcVersion", Json.str "0.4.0"),
          ("input", Json.obj [("language", Json.str "Solidity"),
            ("settings", Json.obj [("optimizer", Json.obj [("enabled", Json.bool true)])])]),
          ("output", Json.obj [("contracts",
            Json.obj [("A.sol", Json.obj [])])])])).1, none) ∧
    "R/A.sol" ∈
      ((hardhat_like_parsing_doc (fun s => "R/" ++ s) "T.sol" "b" "u"
        (Json.obj [("solcVersion", Json.str "0.4.0"),
          ("input", Json.obj [("language", Json.str "Solidity"),
            ("settings", Json.obj [("optimizer", Json.obj [("enabled", Json.bool true)])])]),
          ("output", Json.obj [("contracts",
            Json.obj [("A.sol", Json.obj [])])])])).1).keys := by
  constructor
  · rfl
  · refine C5_contracts_own_path (fun s => "R/" ++ s) "T.sol" "b" "u"
      [("solcVersion", Json.str "0.4.0"),
        ("input", Json.obj [("language", Json.str "Solidity"),
          ("settings", Json.obj [("optimizer", Json.obj [("enabled", Json.bool true)])])]),
        ("output", Json.obj [("contracts", Json.obj [("A.sol", Json.obj [])])])]
      [("contracts", Json.obj [("A.sol", Json.obj [])])]
      [("A.sol", Json.obj [])]
      (Json.str "0.4.0")
      (Json.obj [("language", Json.str "Solidity"),
        ("settings", Json.obj [("optimizer", Json.obj [("enabled", Json.bool true)])])])
      (Json.str "Solidity") (Json.obj [("enabled", Json.bool true)]) (Json.bool true)
      _ rfl rfl rfl rfl rfl rfl rfl rfl ("A.sol", Json.obj []) ?_
    simp

/-- C9: after successful processing, every (path, raw name) pair of the
"contracts" section has its bare extracted name recorded both in the
owning SourceUnit's contract-name set and in the CompilationUnit's
filename-to-contracts reverse index under the path's canonical key. -/
theorem C9_double_registration (resolve : String → String)
    (target build_info uniq_id : String) (kvs tkvs ckvs : List (String × Json))
    (v inp lang opt en : Json) (cu2 : CompilationUnit)
    (hout : alookup kvs "output" = some (Json.obj tkvs))
    (hv : alookup kvs "solcVersion" = some v)
    (hinp : alookup kvs "input" = some inp)
    (hlang : inp.item "language" = Except.ok lang)
    (hopt : (inp.item "settings").bind (fun st => st.item "optimizer") = Except.ok opt)
    (hen : opt.item "enabled" = Except.ok en)
    (hck : alookup tkvs "contracts" = some (Json.obj ckvs))
    (hrun : hardhat_like_parsing_doc resolve target build_info uniq_id
      (Json.obj kvs) = (cu2, none)) :
    ∀ pci, pci ∈ ckvs → ∃ cs, (pci.2).items = Except.ok cs ∧
      ∀ rc, rc ∈ cs →
        (∃ su, cu2.lookupSU (resolve pci.1) = some su ∧
          extract_name rc.1 ∈ su.contract_names) ∧
        extract_name rc.1 ∈ ftcNames cu2 (resolve pci.1) := by
  rw [parse_eq resolve target build_info uniq_id kvs (Json.obj tkvs) v inp lang opt en
    hout hv hinp hlang hopt hen] at hrun
  rcases hps : process_sources_section resolve target build_info (skip_filename v)
    (CompilationUnit.mk uniq_id
      (some (CompilerVersion.mk
        (if lang.eqStr "Solidity" then "solc" else "vyper") v en)) [] [])
    (Json.obj tkvs) with ⟨cu1s, e2⟩
  rw [hps] at hrun
  cases e2 with
  | some e3 =>
      dsimp only at hrun
      injection hrun with h1 h2
      simp at h2
  | none =>
      dsimp only at hrun
      rw [pcs_eq_present resolve cu1s tkvs ckvs hck] at hrun
      intro pci hpci
      obtain ⟨cs, hcs, hall⟩ := cf_populated_success hrun pci hpci
      exact ⟨cs, hcs, fun rc hrc => registered_of_populated (hall rc hrc)⟩


/-- C4: a "sources" entry carrying neither an "ast" value nor a
"legacyAST" value fails with CompilationInvalid naming the entry's
effective canonical path and the document; conversely, on a successful
parse every SourceUnit populated from the "sources" section ends with a
non-absent (non-null) AST. -/
theorem C4_ast_presence :
    (∀ (resolve : String → String) (target build_info : String) (skip : Bool)
      (cu : CompilationUnit) (p : String) (ikvs : List (String × Json)),
      (alookup ikvs "ast" = none ∨ alookup ikvs "ast" = some Json.null) →
      (alookup ikvs "legacyAST" = none ∨ alookup ikvs "legacyAST" = some Json.null) →
      (process_source_entry resolve target build_info skip cu (p, Json.obj ikvs)).2 =
        some (PyErr.invalidCompilation
          ("AST not found for " ++ effective_source_key resolve target skip p ++
            " in " ++ build_info ++ " directory"))) ∧
    (∀ (resolve : String → String) (target build_info uniq_id : String)
      (kvs tkvs skvs : List (String × Json)) (v inp lang opt en : Json)
      (cu2 : CompilationUnit),
      alookup kvs "output" = some (Json.obj tkvs) →
      alookup kvs "solcVersion" = some v →
      alookup kvs "input" = some inp →
      inp.item "language" = Except.ok lang →
      (inp.item "settings").bind (fun st => st.item "optimizer") = Except.ok opt →
      opt.item "enabled" = Except.ok en →
      alookup tkvs "sources" = some (Json.obj skvs) →
      hardhat_like_parsing_doc resolve target build_info uniq_id (Json.obj kvs) =
        (cu2, none) →
      ∀ x, x ∈ skvs → ∃ a,
        astOf cu2 (effective_source_key resolve target (skip_filename v) x.1) =
          some a ∧ a.isNull = false) := by
  constructor
  · intro resolve target build_info skip cu p ikvs hast hleg
    unfold process_source_entry
    dsimp only
    have hfb : (Json.obj ikvs).dictGet "legacyAST" Json.null = Except.ok Json.null := by
      rcases hleg with h | h <;> simp [Json.dictGet, h]
    have hav : (Json.obj ikvs).dictGet "ast" Json.null = Except.ok Json.null := by
      rcases hast with h | h <;> simp [Json.dictGet, h]
    rw [hfb]
    dsimp only
    rw [hav]
    dsimp only [Json.isNull]
    rw [if_pos rfl]
  · intro resolve target build_info uniq_id kvs tkvs skvs v inp lang opt en cu2
      hout hv hinp hlang hopt hen hsrc hrun
    rw [parse_eq resolve target build_info uniq_id kvs (Json.obj tkvs) v inp lang opt en
      hout hv hinp hlang hopt hen] at hrun
    rcases hps : process_sources_section resolve target build_info (skip_filename v)
      (CompilationUnit.mk uniq_id
        (some (CompilerVersion.mk
          (if lang.eqStr "Solidity" then "solc" else "vyper") v en)) [] [])
      (Json.obj tkvs) with ⟨cu1s, e2⟩
    rw [hps] at hrun
    cases e2 with
    | some e3 =>
        dsimp only at hrun
        injection hrun with h1 h2
        simp at h2
    | none =>
        dsimp only at hrun
        rw [pss_eq_present resolve target build_info (skip_filename v)
          (CompilationUnit.mk uniq_id
            (some (CompilerVersion.mk
              (if lang.eqStr "Solidity" then "solc" else "vyper") v en)) [] [])
          tkvs skvs hsrc] at hps
        have hastall := sf_ast_all hps
        have hCS : CStep cu1s cu2 := pcs_CStep_success hrun
        intro x hx
        obtain ⟨a, ha, hnn⟩ := hastall x hx
        rcases hCS.ast (effective_source_key resolve target (skip_filename v) x.1)
          with he | ⟨h0, h1⟩
        · exact ⟨a, he.trans ha, hnn⟩
        · rw [ha] at h0
          simp at h0

/-- Witness for C4: the entry ("A.sol", {}) raises CompilationInvalid
naming the resolved path, and in a successful run the source unit
"R/A.sol" ends with the non-null AST it was given. -/
theorem C4_ast_presence_witness :
    (process_source_entry (fun s => "R/" ++ s) "T.sol" "b" false
        (CompilationUnit.mk "u" none [] []) ("A.sol", Json.obj [])).2 =
      some (PyErr.invalidCompilation
        ("AST not found for " ++
          effective_source_key (fun s => "R/" ++ s) "T.sol" false "A.sol" ++
          " in " ++ "b" ++ " directory")) ∧
    hardhat_like_parsing_doc (fun s => "R/" ++ s) "T.sol" "b" "u"
      (Json.obj [("solcVersion", Json.str "0.8.0"),
        ("input", Json.obj [("language", Json.str "Solidity"),
          ("settings", Json.obj [("optimizer", Json.obj [("enabled", Json.bool true)])])]),
        ("output", Json.obj [("sources",
          Json.obj [("A.sol", Json.obj [("ast", Json.num 7)])])])]) =
      ((hardhat_like_parsing_doc (fun s => "R/" ++ s) "T.sol" "b" "u"
        (Json.obj [("solcVersion", Json.str "0.8.0"),
          ("input", Json.obj [("language", Json.str "Solidity"),
            ("settings", Json.obj [("optimizer", Json.obj [("enabled", Json.bool true)])])]),
          ("output", Json.obj [("sources",
            Json.obj [("A.sol", Json.obj [("ast", Json.num 7)])])])])).1, none) ∧
    ∃ a, astOf
      ((hardhat_like_parsing_doc (fun s => "R/" ++ s) "T.sol" "b" "u"
        (Json.obj [("solcVersion", Json.str "0.8.0"),
          ("input", Json.obj [("language", Json.str "Solidity"),
            ("settings", Json.obj [("optimizer", Json.obj [("enabled", Json.bool true)])])]),
          ("output", Json.obj [("sources",
            Json.obj [("A.sol", Json.obj [("ast", Json.num 7)])])])])).1)
      (effective_source_key (fun s => "R/" ++ s) "T.sol"
        (skip_filename (Json.str "0.8.0")) "A.sol") = some a ∧
      a.isNull = false := by
  refine ⟨?_, rfl, ?_⟩
  · exact C4_ast_presence.1 (fun s => "R/" ++ s) "T.sol" "b" false
      (CompilationUnit.mk "u" none [] []) "A.sol" [] (Or.inl rfl) (Or.inl rfl)
  · refine C4_ast_presence.2 (fun s => "R/" ++ s) "T.sol" "b" "u"
      [("solcVersion", Json.str "0.8.0"),
        ("input", Json.obj [("language", Json.str "Solidity"),
          ("settings", Json.obj [("optimizer", Json.obj [("enabled", Json.bool true)])])]),
        ("output", Json.obj [("sources",
          Json.obj [("A.sol", Json.obj [("ast", Json.num 7)])])])]
      [("sources", Json.obj [("A.sol", Json.obj [("ast", Json.num 7)])])]
      [("A.sol", Json.obj [("ast", Json.num 7)])]
      (Json.str "0.8.0")
      (Json.obj [("language", Json.str "Solidity"),
        ("settings", Json.obj [("optimizer", Json.obj [("enabled", Json.bool true)])])])
      (Json.str "Solidity") (Json.obj [("enabled", Json.bool true)]) (Json.bool true)
      _ rfl rfl rfl rfl rfl rfl rfl rfl ("A.sol", Json.obj [("ast", Json.num 7)]) ?_
    simp


/-- C10: a "contracts" path whose canonical key is never produced by
the "sources" section (or whose document has no "sources" section at
all) does not make processing fail: on success its SourceUnit exists
with an absent (null) AST, and every contract of that entry is fully
populated (name registered in both indexes, ABI, bytecodes, source
maps and Natspec all stored). -/
theorem C10_contracts_without_sources (resolve : String → String)
    (target build_info uniq_id : String) (kvs tkvs ckvs : List (String × Json))
    (v inp lang opt en : Json) (cu2 : CompilationUnit) (p : String) (ci : Json)
    (hout : alookup kvs "output" = some (Json.obj tkvs))
    (hv : alookup kvs "solcVersion" = some v)
    (hinp : alookup kvs "input" = some inp)
    (hlang : inp.item "language" = Except.ok lang)
    (hopt : (inp.item "settings").bind (fun st => st.item "optimizer") = Except.ok opt)
    (hen : opt.item "enabled" = Except.ok en)
    (hck : alookup tkvs "contracts" = some (Json.obj ckvs))
    (hpci : (p, ci) ∈ ckvs)
    (hsrc : alookup tkvs "sources" = none ∨
      ∃ skvs, alookup tkvs "sources" = some (Json.obj skvs) ∧
        ∀ x, x ∈ skvs →
          effective_source_key resolve target (skip_filename v) x.1 ≠ resolve p)
    (hrun : hardhat_like_parsing_doc resolve target build_info uniq_id
      (Json.obj kvs) = (cu2, none)) :
    ∃ su, cu2.lookupSU (resolve p) = some su ∧ su.ast = Json.null ∧
      ∃ cs, ci.items = Except.ok cs ∧
        ∀ rc, rc ∈ cs → populated cu2 (resolve p) (extract_name rc.1) := by
  rw [parse_eq resolve target build_info uniq_id kvs (Json.obj tkvs) v inp lang opt en
    hout hv hinp hlang hopt hen] at hrun
  rcases hps : process_sources_section resolve target build_info (skip_filename v)
    (CompilationUnit.mk uniq_id
      (some (CompilerVersion.mk
        (if lang.eqStr "Solidity" then "solc" else "vyper") v en)) [] [])
    (Json.obj tkvs) with ⟨cu1s, e2⟩
  rw [hps] at hrun
  cases e2 with
  | some e3 =>
      dsimp only at hrun
      injection hrun with h1 h2
      simp at h2
  | none =>
      dsimp only at hrun
      have hnm : ¬ (resolve p ∈ cu1s.keys) := by
        rcases hsrc with habs | ⟨skvs, hpres, hne⟩
        · rw [pss_eq_absent resolve target build_info (skip_filename v)
            (CompilationUnit.mk uniq_id
              (some (CompilerVersion.mk
                (if lang.eqStr "Solidity" then "solc" else "vyper") v en)) [] [])
            tkvs habs] at hps
          injection hps with hcu hx
          intro hmem
          rw [← hcu] at hmem
          simp [CompilationUnit.keys] at hmem
        · rw [pss_eq_present resolve target build_info (skip_filename v)
            (CompilationUnit.mk uniq_id
              (some (CompilerVersion.mk
                (if lang.eqStr "Solidity" then "solc" else "vyper") v en)) [] [])
            tkvs skvs hpres] at hps
          intro hmem
          rcases sf_keys_sub skvs _ cu1s hps (resolve p) hmem with h0 | ⟨x, hxmem, hxeq⟩
          · simp [CompilationUnit.keys] at h0
          · exact hne x hxmem hxeq.symm
      rw [pcs_eq_present resolve cu1s tkvs ckvs hck] at hrun
      have hkey : resolve p ∈ cu2.keys := by
        have h2 := cf_keys_success hrun (p, ci) hpci
        simpa using h2
      have hCS := cf_CStep_success hrun
      have hnone : cu1s.lookupSU (resolve p) = none := by
        cases hl : cu1s.lookupSU (resolve p) with
        | none => rfl
        | some su =>
            exact absurd ((mem_keys_iff cu1s (resolve p)).mpr (by rw [hl]; rfl)) hnm
      rcases hCS.ast (resolve p) with he | ⟨h0, h1⟩
      · exfalso
        rw [mem_keys_iff, Option.isSome_iff_exists] at hkey
        obtain ⟨su, hsu⟩ := hkey
        have hl2 : astOf cu2 (resolve p) = some su.ast := by
          unfold astOf
          rw [hsu]
          rfl
        have hr2 : astOf cu1s (resolve p) = none := by
          unfold astOf
          rw [hnone]
          rfl
        rw [hl2, hr2] at he
        exact absurd he (by simp)
      · unfold astOf at h1
        rw [Option.map_eq_some'] at h1
        obtain ⟨su, hsu, hast⟩ := h1
        refine ⟨su, hsu, hast, ?_⟩
        have h3 := cf_populated_success hrun (p, ci) hpci
        simpa using h3

/-- Witness for C9: one contract "X:A" under path "A.sol"; after a
successful run the bare name "A" is in both indexes. -/
theorem C9_double_registration_witness :
    res9 = (res9.1, none) ∧
    (∃ su, res9.1.lookupSU (id "A.sol") = some su ∧
      extract_name "X:A" ∈ su.contract_names) ∧
    extract_name "X:A" ∈ ftcNames res9.1 (id "A.sol") := by
  refine ⟨rfl, ?_⟩
  have h := C9_double_registration id "T" "b" "u" doc9
    [("contracts", Json.obj [("A.sol", Json.obj [("X:A", cinfo9)])])]
    [("A.sol", Json.obj [("X:A", cinfo9)])]
    (Json.str "0.8.0")
    (Json.obj [("language", Json.str "Solidity"),
      ("settings", Json.obj [("optimizer", Json.obj [("enabled", Json.bool true)])])])
    (Json.str "Solidity") (Json.obj [("enabled", Json.bool true)]) (Json.bool true)
    res9.1 rfl rfl rfl rfl rfl rfl rfl rfl
    ("A.sol", Json.obj [("X:A", cinfo9)]) (by simp)
  obtain ⟨cs, hcs, hall⟩ := h
  have hcs2 : cs = [("X:A", cinfo9)] := by
    simp only [Json.items] at hcs
    injection hcs with h2
    exact h2.symm
  subst hcs2
  have h3 := hall ("X:A", cinfo9) (by simp)
  simpa using h3

/-- Witness for C10: the contracts-only path "B.sol" yields a
SourceUnit with a null AST and a fully populated contract "B". -/
theorem C10_contracts_without_sources_witness :
    res10 = (res10.1, none) ∧
    ∃ su, res10.1.lookupSU (id "B.sol") = some su ∧ su.ast = Json.null ∧
      populated res10.1 (id "B.sol") (extract_name "Y:B") := by
  refine ⟨rfl, ?_⟩
  have h := C10_contracts_without_sources id "T" "b" "u" doc10
    [("contracts", Json.obj [("B.sol", Json.obj [("Y:B", cinfo10)])])]
    [("B.sol", Json.obj [("Y:B", cinfo10)])]
    (Json.str "0.8.0")
    (Json.obj [("language", Json.str "Solidity"),
      ("settings", Json.obj [("optimizer", Json.obj [("enabled", Json.bool true)])])])
    (Json.str "Solidity") (Json.obj [("enabled", Json.bool true)]) (Json.bool true)
    res10.1 "B.sol" (Json.obj [("Y:B", cinfo10)])
    rfl rfl rfl rfl rfl rfl rfl (by simp) (Or.inl rfl) rfl
  obtain ⟨su, hsu, hast, cs, hcs, hall⟩ := h
  have hcs2 : cs = [("Y:B", cinfo10)] := by
    simp only [Json.items] at hcs
    injection hcs with h2
    exact h2.symm
  subst hcs2
  exact ⟨su, hsu, hast, hall ("Y:B", cinfo10) (by simp)⟩

end CryticCompile
